import Mathlib

/-!
# ServiceRole controller: reconciliation of a ServiceRole into its ServiceAccount

A shallow embedding of `part-two/internal/controller/servicerole_controller.go`
(`Reconcile`, `ensureServiceAccount`, `SetupWithManager`) together with the types of
`part-two/api/v1alpha1/servicerole_types.go` it consumes.

* Go values are Lean structures with the Go field names.
* A Go `map[string]string` is an association list read and written by key; the `nil`
  map is `none`.
* The cluster client (`client.Client`) is a record of operations over an explicit
  state: the two typed `Get`s are reads, `Create` and `Update` return an optional
  error and the next state. Every run also records the client calls it issued.
* Logging has no effect on the values or on the cluster and is left out.
-/

set_option autoImplicit false

namespace IamOperator

/-! ## Errors -/

/-- The `metav1.StatusReason` values the controller can tell apart. -/
inductive StatusReason where
  | NotFound
  | AlreadyExists
  | Conflict
  | Forbidden
  | Unknown
deriving DecidableEq, Repr

/-- A Go `error` value: an API status error, a plain error, or an error wrapped by
`fmt.Errorf("<context>: %w", inner)`. -/
inductive Err where
  | status (reason : StatusReason) (message : String)
  | plain (message : String)
  | wrap (context : String) (inner : Err)
deriving DecidableEq, Repr

/-- The text of `err.Error()`. -/
def Err.Error : Err → String
  | .status _ m => m
  | .plain m => m
  | .wrap c e => c ++ ": " ++ e.Error

/-- The function `fmt.Errorf(context + ": %w", err)`. -/
def Errorf (context : String) (err : Err) : Err := .wrap context err

/-- The function `apierrors.ReasonForError`: the reason of the first API status found
along the chain of wrapped errors. -/
def ReasonForError : Err → StatusReason
  | .status r _ => r
  | .plain _ => .Unknown
  | .wrap _ e => ReasonForError e

/-- The function `apierrors.IsNotFound`, on the reason of the error (the fallback on the
HTTP code of a status without a known reason is folded into the reason). -/
def IsNotFound (err : Err) : Bool := ReasonForError err == .NotFound

/-! ## Object model -/

/-- The type `metav1.OwnerReference`; the two `*bool` fields are options. -/
structure OwnerReference where
  APIVersion : String
  Kind : String
  Name : String
  UID : String
  Controller : Option Bool
  BlockOwnerDeletion : Option Bool
deriving DecidableEq, Repr

/-- The fields of `metav1.ObjectMeta` the controller and the API server touch. The
resource version is the concurrency token of the object, kept as the number it encodes. -/
structure ObjectMeta where
  Name : String := ""
  Namespace : String := ""
  UID : String := ""
  ResourceVersion : Nat := 0
  Labels : Option (List (String × String)) := none
  OwnerReferences : List OwnerReference := []
deriving DecidableEq, Repr

/-- The type `ServiceRoleSpec` (no fields). -/
structure ServiceRoleSpec where
deriving DecidableEq, Repr

/-- The type `ServiceRoleStatus`. -/
structure ServiceRoleStatus where
  ServiceAccountName : String := ""
deriving DecidableEq, Repr

/-- The type `ServiceRole`. -/
structure ServiceRole where
  ObjectMeta : ObjectMeta := {}
  Spec : ServiceRoleSpec := {}
  Status : ServiceRoleStatus := {}
deriving DecidableEq, Repr

/-- The type `corev1.ServiceAccount`. -/
structure ServiceAccount where
  ObjectMeta : ObjectMeta := {}
  Secrets : List String := []
  ImagePullSecrets : List String := []
  AutomountServiceAccountToken : Option Bool := none
deriving DecidableEq, Repr

/-- The type `types.NamespacedName` (also `client.ObjectKey`). -/
structure NamespacedName where
  Namespace : String
  Name : String
deriving DecidableEq, Repr

/-- The type `ctrl.Request`. -/
structure Request where
  NamespacedName : NamespacedName
deriving DecidableEq, Repr

/-- The type `ctrl.Result`; the zero value asks for no requeue. -/
structure Result where
  Requeue : Bool := false
  RequeueAfter : Nat := 0
deriving DecidableEq, Repr

/-- The type `schema.GroupVersionKind`. -/
structure GroupVersionKind where
  Group : String
  Version : String
  Kind : String
deriving DecidableEq, Repr

/-- The part of `runtime.Scheme` the controller reads: the kinds registered for the
Go type `ServiceRole`. -/
structure Scheme where
  ObjectKinds : List GroupVersionKind
deriving DecidableEq, Repr

/-! ## Go maps as association lists -/

/-- The Go expression `m[key]` on a `map[string]string`: the zero value when absent. -/
def mapIndex (m : List (String × String)) (key : String) : String :=
  (m.lookup key).getD ""

/-- The Go statement `m[key] = value`. -/
def mapAssign : List (String × String) → String → String → List (String × String)
  | [], key, value => [(key, value)]
  | (k, v) :: rest, key, value =>
    if k = key then (key, value) :: rest else (k, v) :: mapAssign rest key value

/-! ## Controller references (controllerutil) -/

/-- The method `GroupVersion().String()` of a kind. -/
def GroupVersionKind.apiVersion (gvk : GroupVersionKind) : String :=
  if gvk.Group = "" then gvk.Version else gvk.Group ++ "/" ++ gvk.Version

/-- The function `apiutil.GVKForObject` at a `ServiceRole`: exactly one registered kind. -/
def GVKForObject (scheme : Scheme) : Except Err GroupVersionKind :=
  match scheme.ObjectKinds with
  | [] => .error (.plain "no kind is registered for the type v1alpha1.ServiceRole")
  | [gvk] => .ok gvk
  | _ :: _ :: _ => .error (.plain "multiple group-version-kinds associated with type")

/-- The function `validateOwner`: a namespaced owner needs a namespaced object in the
same namespace. -/
def validateOwner (owner object : ObjectMeta) : Option Err :=
  if owner.Namespace ≠ "" then
    if object.Namespace = "" then
      some (.plain "cluster-scoped resource must not have a namespace-scoped owner")
    else if owner.Namespace ≠ object.Namespace then
      some (.plain "cross-namespace owner references are disallowed")
    else none
  else none

/-- The function `metav1.GetControllerOf`: the first reference marked as controller. -/
def GetControllerOf (object : ObjectMeta) : Option OwnerReference :=
  object.OwnerReferences.find? (fun ref => ref.Controller == some true)

/-- The pieces of a string between its slashes. -/
def splitSlash : List Char → List (List Char)
  | [] => [[]]
  | c :: rest =>
    if c = '/' then [] :: splitSlash rest
    else
      match splitSlash rest with
      | [] => [[c]]
      | piece :: pieces => (c :: piece) :: pieces

/-- The group that `schema.ParseGroupVersion` reads off an `apiVersion` string: empty
without a slash, the part before the slash when there is one, `none` (a parse error)
when there are more. -/
def parseGroup (apiVersion : String) : Option String :=
  match splitSlash apiVersion.data with
  | [_] => some ""
  | [g, _] => some (String.mk g)
  | _ => none

/-- The function `referSameObject`: same group, kind and name. -/
def referSameObject (a b : OwnerReference) : Bool :=
  match parseGroup a.APIVersion, parseGroup b.APIVersion with
  | some ga, some gb => ga == gb && a.Kind == b.Kind && a.Name == b.Name
  | _, _ => false

/-- The function `upsertOwnerRef`: replace the reference to the same object, else append. -/
def upsertOwnerRef (ref : OwnerReference) : List OwnerReference → List OwnerReference
  | [] => [ref]
  | o :: rest => if referSameObject o ref then ref :: rest else o :: upsertOwnerRef ref rest

/-- The controller reference `SetControllerReference` builds for an owner. -/
def controllerRef (gvk : GroupVersionKind) (owner : ObjectMeta) : OwnerReference :=
  { APIVersion := gvk.apiVersion
    Kind := gvk.Kind
    Name := owner.Name
    UID := owner.UID
    Controller := some true
    BlockOwnerDeletion := some true }

/-- The function `controllerutil.SetControllerReference(owner, controlled, scheme)`;
the controlled object is returned instead of being mutated in place. -/
def SetControllerReference (owner : ServiceRole) (controlled : ServiceAccount)
    (scheme : Scheme) : Except Err ServiceAccount :=
  match validateOwner owner.ObjectMeta controlled.ObjectMeta with
  | some err => .error err
  | none =>
    match GVKForObject scheme with
    | .error err => .error err
    | .ok gvk =>
      let ref := controllerRef gvk owner.ObjectMeta
      match GetControllerOf controlled.ObjectMeta with
      | some existing =>
        if referSameObject existing ref then
          .ok { controlled with ObjectMeta := { controlled.ObjectMeta with
                  OwnerReferences := upsertOwnerRef ref controlled.ObjectMeta.OwnerReferences } }
        else .error (.plain "Object is already owned by another controller")
      | none =>
        .ok { controlled with ObjectMeta := { controlled.ObjectMeta with
                OwnerReferences := upsertOwnerRef ref controlled.ObjectMeta.OwnerReferences } }

/-! ## The client and the reconciler -/

/-- A call issued on the client. -/
inductive Call where
  | GetServiceRole (key : NamespacedName)
  | GetServiceAccount (key : NamespacedName)
  | Create (obj : ServiceAccount)
  | Update (obj : ServiceAccount)
deriving DecidableEq, Repr

/-- The interface `client.Client` over a cluster state `σ`, as far as the controller
uses it. `Get` is typed by the object it fills. -/
structure Client (σ : Type) where
  GetServiceRole : σ → NamespacedName → Except Err ServiceRole
  GetServiceAccount : σ → NamespacedName → Except Err ServiceAccount
  Create : σ → ServiceAccount → Option Err × σ
  Update : σ → ServiceAccount → Option Err × σ

/-- The type `ServiceRoleReconciler`. -/
structure ServiceRoleReconciler (σ : Type) where
  Client : Client σ
  Scheme : Scheme

/-- The outcome of running a method: its return value, the cluster state it leaves and
the client calls it issued, in order. -/
structure Run (σ α : Type) where
  value : α
  state : σ
  calls : List Call

/-- The label map every managed account is given (the map literal in
`ensureServiceAccount`). -/
def desiredLabels (serviceRole : ServiceRole) : List (String × String) :=
  [("app.kubernetes.io/managed-by", "iam-operator"),
   ("platform.io/servicerole", serviceRole.ObjectMeta.Name)]

/-- The struct literal `&corev1.ServiceAccount{...}` at the head of
`ensureServiceAccount`, before the controller reference is set. -/
def newServiceAccount (serviceRole : ServiceRole) (name : String) : ServiceAccount :=
  { ObjectMeta :=
      { Name := name
        Namespace := serviceRole.ObjectMeta.Namespace
        Labels := some (desiredLabels serviceRole) } }

/-- The loop `for key, value := range serviceAccount.Labels` of `ensureServiceAccount`:
the label map of `existing` and the flag `updated` after the loop. -/
def mergeLabels (desired : List (String × String)) (existing : List (String × String)) :
    List (String × String) × Bool :=
  desired.foldl
    (fun acc kv => if mapIndex acc.1 kv.1 ≠ kv.2 then (mapAssign acc.1 kv.1 kv.2, true) else acc)
    (existing, false)

/-- The method `ServiceRoleReconciler.ensureServiceAccount`. -/
def ensureServiceAccount {σ : Type} (r : ServiceRoleReconciler σ) (serviceRole : ServiceRole)
    (name : String) (s : σ) : Run σ (Option Err) :=
  let serviceAccount := newServiceAccount serviceRole name
  match SetControllerReference serviceRole serviceAccount r.Scheme with
  | .error err => ⟨some (Errorf "failed to set controller reference" err), s, []⟩
  | .ok serviceAccount =>
    let key : NamespacedName := ⟨serviceRole.ObjectMeta.Namespace, name⟩
    match r.Client.GetServiceAccount s key with
    | .error err =>
      if IsNotFound err then
        match r.Client.Create s serviceAccount with
        | (some err, s') =>
          ⟨some (Errorf "failed to create ServiceAccount" err), s',
            [.GetServiceAccount key, .Create serviceAccount]⟩
        | (none, s') => ⟨none, s', [.GetServiceAccount key, .Create serviceAccount]⟩
      else ⟨some (Errorf "failed to get ServiceAccount" err), s, [.GetServiceAccount key]⟩
    | .ok existing =>
      let labels := existing.ObjectMeta.Labels.getD []
      let merged := mergeLabels (serviceAccount.ObjectMeta.Labels.getD []) labels
      if merged.2 then
        let existing : ServiceAccount :=
          { existing with ObjectMeta := { existing.ObjectMeta with Labels := some merged.1 } }
        match r.Client.Update s existing with
        | (some err, s') =>
          ⟨some (Errorf "failed to update ServiceAccount" err), s',
            [.GetServiceAccount key, .Update existing]⟩
        | (none, s') => ⟨none, s', [.GetServiceAccount key, .Update existing]⟩
      else ⟨none, s, [.GetServiceAccount key]⟩

/-- The method `ServiceRoleReconciler.Reconcile`. -/
def Reconcile {σ : Type} (r : ServiceRoleReconciler σ) (req : Request) (s : σ) :
    Run σ (Result × Option Err) :=
  match r.Client.GetServiceRole s req.NamespacedName with
  | .error err =>
    if IsNotFound err then ⟨({}, none), s, [.GetServiceRole req.NamespacedName]⟩
    else ⟨({}, some err), s, [.GetServiceRole req.NamespacedName]⟩
  | .ok serviceRole =>
    let serviceAccountName := serviceRole.ObjectMeta.Name ++ "-sa"
    let run := ensureServiceAccount r serviceRole serviceAccountName s
    match run.value with
    | some err => ⟨({}, some err), run.state, .GetServiceRole req.NamespacedName :: run.calls⟩
    | none => ⟨({}, none), run.state, .GetServiceRole req.NamespacedName :: run.calls⟩

/-! ## An API server in memory

The cluster as the API server holds it: one list per resource, objects addressed by
namespace and name. `Create` refuses a taken name, `Update` refuses an unknown object or
a stale resource version, and both stamp the stored object with a resource version.
Nothing else is defaulted or validated on the way in. -/

/-- The key of an object. -/
def ObjectMeta.key (m : ObjectMeta) : NamespacedName := ⟨m.Namespace, m.Name⟩

/-- The state of the cluster. -/
structure Cluster where
  ServiceRoles : List ServiceRole := []
  ServiceAccounts : List ServiceAccount := []
deriving DecidableEq, Repr

/-- The stored service account at a key. -/
def Cluster.account (c : Cluster) (key : NamespacedName) : Option ServiceAccount :=
  c.ServiceAccounts.find? (fun o => o.ObjectMeta.key == key)

/-- The stored service role at a key. -/
def Cluster.role (c : Cluster) (key : NamespacedName) : Option ServiceRole :=
  c.ServiceRoles.find? (fun o => o.ObjectMeta.key == key)

/-- Replace the first account stored under the key of `obj`. -/
def replaceAccount (obj : ServiceAccount) : List ServiceAccount → List ServiceAccount
  | [] => []
  | o :: rest =>
    if o.ObjectMeta.key == obj.ObjectMeta.key then obj :: rest
    else o :: replaceAccount obj rest

/-- An object with the resource version the server stamps on it. -/
def stamped (obj : ServiceAccount) (version : Nat) : ServiceAccount :=
  { obj with ObjectMeta := { obj.ObjectMeta with ResourceVersion := version } }

/-- The cluster with its list of service accounts replaced. -/
def Cluster.setAccounts (c : Cluster) (accounts : List ServiceAccount) : Cluster :=
  { c with ServiceAccounts := accounts }

/-- The server side of `Get` for a `ServiceRole`. -/
def Cluster.GetServiceRole (c : Cluster) (key : NamespacedName) : Except Err ServiceRole :=
  match c.role key with
  | some o => .ok o
  | none => .error (.status .NotFound ("serviceroles.iam.craft-conf.com not found: " ++ key.Name))

/-- The server side of `Get` for a `ServiceAccount`. -/
def Cluster.GetServiceAccount (c : Cluster) (key : NamespacedName) :
    Except Err ServiceAccount :=
  match c.account key with
  | some o => .ok o
  | none => .error (.status .NotFound ("serviceaccounts not found: " ++ key.Name))

/-- The server side of `Create` for a `ServiceAccount`. -/
def Cluster.Create (c : Cluster) (obj : ServiceAccount) : Option Err × Cluster :=
  match c.account obj.ObjectMeta.key with
  | some _ =>
    (some (.status .AlreadyExists ("serviceaccounts already exists: " ++ obj.ObjectMeta.Name)), c)
  | none =>
    (none, c.setAccounts (c.ServiceAccounts ++ [stamped obj 1]))

/-- The server side of `Update` for a `ServiceAccount`. -/
def Cluster.Update (c : Cluster) (obj : ServiceAccount) : Option Err × Cluster :=
  match c.account obj.ObjectMeta.key with
  | none => (some (.status .NotFound ("serviceaccounts not found: " ++ obj.ObjectMeta.Name)), c)
  | some stored =>
    if obj.ObjectMeta.ResourceVersion ≠ stored.ObjectMeta.ResourceVersion then
      (some (.status .Conflict "the object has been modified"), c)
    else
      (none, c.setAccounts
        (replaceAccount (stamped obj (stored.ObjectMeta.ResourceVersion + 1)) c.ServiceAccounts))

/-- A client that talks to the in-memory API server directly. -/
def directClient : Client Cluster :=
  { GetServiceRole := Cluster.GetServiceRole
    GetServiceAccount := Cluster.GetServiceAccount
    Create := Cluster.Create
    Update := Cluster.Update }

/-- A cluster seen through a read cache: reads are served from `cache`, writes go to
`server`. -/
structure CachedCluster where
  cache : Cluster
  server : Cluster
deriving DecidableEq, Repr

/-- The split client of the manager: `Get` reads the cache, `Create` and `Update`
write to the API server. The cache is not refreshed inside one reconcile. -/
def cachedClient : Client CachedCluster :=
  { GetServiceRole := fun s key => s.cache.GetServiceRole key
    GetServiceAccount := fun s key => s.cache.GetServiceAccount key
    Create := fun s obj => ((s.server.Create obj).1, { s with server := (s.server.Create obj).2 })
    Update := fun s obj => ((s.server.Update obj).1, { s with server := (s.server.Update obj).2 }) }

/-- An account is owned by a role when one of its owner references names the role
(kind, name and UID). -/
def ownedBy (gvk : GroupVersionKind) (role : ServiceRole) (sa : ServiceAccount) : Bool :=
  sa.ObjectMeta.OwnerReferences.any
    (fun ref => ref.APIVersion == gvk.apiVersion && ref.Kind == gvk.Kind
      && ref.Name == role.ObjectMeta.Name && ref.UID == role.ObjectMeta.UID)

/-- The objects passed to `Create` among some calls. -/
def created (calls : List Call) : List ServiceAccount :=
  calls.filterMap (fun c => match c with | .Create o => some o | _ => none)

/-- The objects passed to `Update` among some calls. -/
def updated (calls : List Call) : List ServiceAccount :=
  calls.filterMap (fun c => match c with | .Update o => some o | _ => none)

/-! ## Controller registration (builder)

The builder of controller-runtime as a record of what `For` and `Owns` were given, and
the rule by which a change to an object of a watched type enqueues requests. -/

/-- The Go types the controller can name in `For` and `Owns`. -/
inductive ObjectType where
  | ServiceRole
  | ServiceAccount
deriving DecidableEq, Repr

/-- The manager, as far as the builder reads it. -/
structure Manager where
  Scheme : Scheme
deriving DecidableEq, Repr

/-- The type `builder.Builder`: what `For` and `Owns` recorded so far. -/
structure Builder where
  mgr : Manager
  forInput : Option ObjectType := none
  ownsInput : List ObjectType := []
deriving DecidableEq, Repr

/-- A registered controller: its primary type with its kind, and its owned types. -/
structure Controller where
  For : ObjectType
  ForKind : GroupVersionKind
  Owns : List ObjectType
deriving DecidableEq, Repr

/-- The function `ctrl.NewControllerManagedBy`. -/
def NewControllerManagedBy (mgr : Manager) : Builder := { mgr := mgr }

/-- The method `Builder.For`. -/
def Builder.For (b : Builder) (t : ObjectType) : Builder := { b with forInput := some t }

/-- The method `Builder.Owns`. -/
def Builder.Owns (b : Builder) (t : ObjectType) : Builder :=
  { b with ownsInput := b.ownsInput ++ [t] }

/-- The method `Builder.Complete`: a primary type is required and its kind must be
registered in the scheme of the manager. -/
def Builder.Complete (b : Builder) : Except Err Controller :=
  match b.forInput with
  | none => .error (.plain "must provide an object for reconciliation")
  | some t =>
    match GVKForObject b.mgr.Scheme with
    | .error err => .error err
    | .ok gvk => .ok { For := t, ForKind := gvk, Owns := b.ownsInput }

/-- The method `ServiceRoleReconciler.SetupWithManager`. -/
def SetupWithManager {σ : Type} (_r : ServiceRoleReconciler σ) (mgr : Manager) :
    Except Err Controller :=
  ((NewControllerManagedBy mgr).For .ServiceRole).Complete

/-- The requests a change to an object enqueues: its own key when it is of the primary
type, and the key of its controller owner when it is of an owned type and that owner is
of the primary kind. -/
def Controller.enqueue (c : Controller) (t : ObjectType) (object : ObjectMeta) : List Request :=
  (if t = c.For then [⟨object.key⟩] else []) ++
  (if t ∈ c.Owns then
    match GetControllerOf object with
    | some ref =>
      if ref.Kind == c.ForKind.Kind && parseGroup ref.APIVersion == some c.ForKind.Group then
        [⟨⟨object.Namespace, ref.Name⟩⟩]
      else []
    | none => []
   else [])

/-! ## Sample objects -/

/-- The kind of `ServiceRole` in group `iam.craft-conf.com`, version `v1alpha1`. -/
def serviceRoleKind : GroupVersionKind := ⟨"iam.craft-conf.com", "v1alpha1", "ServiceRole"⟩

/-- A scheme with `ServiceRole` registered. -/
def sampleScheme : Scheme := ⟨[serviceRoleKind]⟩

/-- The role `billing` in namespace `team-a`. -/
def billing : ServiceRole :=
  { ObjectMeta := { Name := "billing", Namespace := "team-a", UID := "uid-billing",
                    ResourceVersion := 1 } }

/-- The request for `team-a/billing`. -/
def billingRequest : Request := ⟨⟨"team-a", "billing"⟩⟩

/-- The reconciler over the in-memory API server. -/
def directReconciler : ServiceRoleReconciler Cluster := ⟨directClient, sampleScheme⟩

/-- The reconciler over the cached client. -/
def cachedReconciler : ServiceRoleReconciler CachedCluster := ⟨cachedClient, sampleScheme⟩

/-! ## Derived values used in the statements -/

/-- The object `ensureServiceAccount` sends to `Update`: the fetched account with the
merged label map. -/
def relabeled (serviceRole : ServiceRole) (existing : ServiceAccount) : ServiceAccount :=
  { existing with ObjectMeta := { existing.ObjectMeta with
      Labels := some (mergeLabels (desiredLabels serviceRole)
        (existing.ObjectMeta.Labels.getD [])).1 } }

/-- The flag `updated` after the merge loop on a fetched account. -/
def needsUpdate (serviceRole : ServiceRole) (existing : ServiceAccount) : Bool :=
  (mergeLabels (desiredLabels serviceRole) (existing.ObjectMeta.Labels.getD [])).2

/-- The account `billing-sa` of the label drift scenario, keyed as the specification
writes it: a stale `servicerole`, an unmanaged `team`, and `managed-by`. -/
def driftedShortKeys : ServiceAccount :=
  { ObjectMeta :=
      { Name := "billing-sa"
        Namespace := "team-a"
        ResourceVersion := 3
        Labels := some [("servicerole", "wrong"), ("team", "finance"),
                        ("managed-by", "iam-operator")] } }

/-- The account `billing-sa` with a stale value under the key the controller manages. -/
def driftedAccount : ServiceAccount :=
  { ObjectMeta :=
      { Name := "billing-sa"
        Namespace := "team-a"
        ResourceVersion := 3
        Labels := some [("platform.io/servicerole", "wrong"), ("team", "finance"),
                        ("app.kubernetes.io/managed-by", "iam-operator")] } }

/-- A role whose name is the empty string. -/
def unnamedRole : ServiceRole :=
  { ObjectMeta := { Name := "", Namespace := "team-a", UID := "uid-unnamed" } }

/-- An account `-sa` that carries only the `managed-by` label. -/
def halfLabelled : ServiceAccount :=
  { ObjectMeta :=
      { Name := "-sa"
        Namespace := "team-a"
        ResourceVersion := 3
        Labels := some [("app.kubernetes.io/managed-by", "iam-operator")] } }

/-- The account `billing-sa` created by nobody: no owner, no labels. -/
def foreignAccount : ServiceAccount :=
  { ObjectMeta :=
      { Name := "billing-sa"
        Namespace := "team-a"
        UID := "uid-foreign"
        ResourceVersion := 5 } }

/-- The account `billing-sa` as `ensureServiceAccount` creates it for `billing`. -/
def managedAccount : ServiceAccount :=
  { ObjectMeta :=
      { Name := "billing-sa"
        Namespace := "team-a"
        ResourceVersion := 1
        Labels := some [("app.kubernetes.io/managed-by", "iam-operator"),
                        ("platform.io/servicerole", "billing")]
        OwnerReferences := [controllerRef serviceRoleKind billing.ObjectMeta] } }

/-- A cache that has not yet seen the account the server already holds. -/
def staleCache : CachedCluster :=
  { cache := ⟨[billing], []⟩, server := ⟨[billing], [managedAccount]⟩ }

/-- The account `ensureServiceAccount` passes to `Create`: the struct literal with the
controller reference set. -/
def managedServiceAccount (gvk : GroupVersionKind) (serviceRole : ServiceRole)
    (name : String) : ServiceAccount :=
  { ObjectMeta :=
      { Name := name
        Namespace := serviceRole.ObjectMeta.Namespace
        Labels := some (desiredLabels serviceRole)
        OwnerReferences := [controllerRef gvk serviceRole.ObjectMeta] } }

/-- No two stored service accounts share a key (the API server keeps one object per
namespace and name). -/
def Cluster.uniqueKeys (c : Cluster) : Prop :=
  (c.ServiceAccounts.map (fun o => o.ObjectMeta.key)).Nodup

instance (c : Cluster) : Decidable c.uniqueKeys :=
  inferInstanceAs (Decidable (List.Nodup _))

/-- The number of stored service accounts at a key. -/
def Cluster.accountsAt (c : Cluster) (key : NamespacedName) : Nat :=
  c.ServiceAccounts.countP (fun o => o.ObjectMeta.key == key)

/-- A client with fixed answers, whatever it is asked: one answer per kind of call. -/
def scriptedClient (role : Except Err ServiceRole) (account : Except Err ServiceAccount)
    (create update : Option Err) : Client Unit :=
  { GetServiceRole := fun _ _ => role
    GetServiceAccount := fun _ _ => account
    Create := fun s _ => (create, s)
    Update := fun s _ => (update, s) }

/-- The error of a call that ran out of time. -/
def timeoutError : Err := .plain "context deadline exceeded"

/-- The error of a call the service account of the controller may not make. -/
def forbiddenError : Err := .status .Forbidden "serviceaccounts is forbidden"

/-- A cache that holds an older version of the unlabelled `billing-sa` than the server. -/
def staleVersion : CachedCluster :=
  { cache := ⟨[billing], [foreignAccount]⟩, server := ⟨[billing], [stamped foreignAccount 9]⟩ }

/-! ## Lemmas on maps -/

theorem lookup_mapAssign_self (m : List (String × String)) (key value : String) :
    (mapAssign m key value).lookup key = some value := by
  induction m with
  | nil => simp [mapAssign, List.lookup]
  | cons kv rest ih =>
    obtain ⟨k, v⟩ := kv
    by_cases h : k = key
    · simp [mapAssign, h, List.lookup]
    · have h' : (key == k) = false := by simpa using fun e => h e.symm
      simp [mapAssign, h, List.lookup, h', ih]

theorem lookup_mapAssign_ne (m : List (String × String)) (key value other : String)
    (hne : other ≠ key) : (mapAssign m key value).lookup other = m.lookup other := by
  induction m with
  | nil =>
    have h' : (other == key) = false := by simpa using hne
    simp [mapAssign, List.lookup, h']
  | cons kv rest ih =>
    obtain ⟨k, v⟩ := kv
    by_cases h : k = key
    · subst h
      have h' : (other == k) = false := by simpa using hne
      simp [mapAssign, List.lookup, h']
    · simp only [mapAssign, h, if_false, List.lookup]
      cases other == k <;> simp [ih]

/-- The merge loop on a two-entry desired map, unfolded. -/
theorem mergeLabels_pair (k1 v1 k2 v2 : String) (m : List (String × String)) :
    mergeLabels [(k1, v1), (k2, v2)] m =
      if mapIndex m k1 ≠ v1 then
        (if mapIndex (mapAssign m k1 v1) k2 ≠ v2 then
          (mapAssign (mapAssign m k1 v1) k2 v2, true) else (mapAssign m k1 v1, true))
      else
        (if mapIndex m k2 ≠ v2 then (mapAssign m k2 v2, true) else (m, false)) := by
  unfold mergeLabels
  by_cases h1 : mapIndex m k1 = v1 <;> simp [List.foldl, h1]

/-! ## The paths of `ensureServiceAccount` and `Reconcile` -/

/-- On a fresh account the controller reference is set exactly when the scheme knows
the kind of the owner; the result carries that single reference. -/
theorem SetControllerReference_new (serviceRole : ServiceRole) (name : String)
    (scheme : Scheme) :
    SetControllerReference serviceRole (newServiceAccount serviceRole name) scheme =
      match GVKForObject scheme with
      | .error err => .error err
      | .ok gvk => .ok { newServiceAccount serviceRole name with
          ObjectMeta := { (newServiceAccount serviceRole name).ObjectMeta with
            OwnerReferences := [controllerRef gvk serviceRole.ObjectMeta] } } := by
  have hv : validateOwner serviceRole.ObjectMeta (newServiceAccount serviceRole name).ObjectMeta
      = none := by
    unfold validateOwner newServiceAccount
    by_cases h : serviceRole.ObjectMeta.Namespace = "" <;> simp [h]
  unfold SetControllerReference
  rw [hv]
  cases GVKForObject scheme <;>
    simp [GetControllerOf, newServiceAccount, upsertOwnerRef]

theorem ensure_setref_error {σ : Type} (r : ServiceRoleReconciler σ) (serviceRole : ServiceRole)
    (name : String) (s : σ) (e : Err)
    (h : SetControllerReference serviceRole (newServiceAccount serviceRole name) r.Scheme
      = .error e) :
    ensureServiceAccount r serviceRole name s =
      ⟨some (Errorf "failed to set controller reference" e), s, []⟩ := by
  simp [ensureServiceAccount, h]

theorem ensure_get_error {σ : Type} (r : ServiceRoleReconciler σ) (serviceRole : ServiceRole)
    (name : String) (s : σ) (sa : ServiceAccount) (e : Err)
    (h : SetControllerReference serviceRole (newServiceAccount serviceRole name) r.Scheme
      = .ok sa)
    (hget : r.Client.GetServiceAccount s ⟨serviceRole.ObjectMeta.Namespace, name⟩ = .error e)
    (hnf : IsNotFound e = false) :
    ensureServiceAccount r serviceRole name s =
      ⟨some (Errorf "failed to get ServiceAccount" e), s,
        [.GetServiceAccount ⟨serviceRole.ObjectMeta.Namespace, name⟩]⟩ := by
  simp [ensureServiceAccount, h, hget, hnf]

theorem ensure_create {σ : Type} (r : ServiceRoleReconciler σ) (serviceRole : ServiceRole)
    (name : String) (s : σ) (sa : ServiceAccount) (e : Err)
    (h : SetControllerReference serviceRole (newServiceAccount serviceRole name) r.Scheme
      = .ok sa)
    (hget : r.Client.GetServiceAccount s ⟨serviceRole.ObjectMeta.Namespace, name⟩ = .error e)
    (hnf : IsNotFound e = true) :
    ensureServiceAccount r serviceRole name s =
      ⟨(r.Client.Create s sa).1.map (Errorf "failed to create ServiceAccount"),
        (r.Client.Create s sa).2,
        [.GetServiceAccount ⟨serviceRole.ObjectMeta.Namespace, name⟩, .Create sa]⟩ := by
  rcases hc : r.Client.Create s sa with ⟨_ | e', s'⟩ <;>
    simp [ensureServiceAccount, h, hget, hnf, hc]

theorem ensure_found {σ : Type} (r : ServiceRoleReconciler σ) (serviceRole : ServiceRole)
    (name : String) (s : σ) (sa existing : ServiceAccount)
    (h : SetControllerReference serviceRole (newServiceAccount serviceRole name) r.Scheme
      = .ok sa)
    (hget : r.Client.GetServiceAccount s ⟨serviceRole.ObjectMeta.Namespace, name⟩
      = .ok existing) :
    ensureServiceAccount r serviceRole name s =
      if needsUpdate serviceRole existing then
        ⟨(r.Client.Update s (relabeled serviceRole existing)).1.map
            (Errorf "failed to update ServiceAccount"),
          (r.Client.Update s (relabeled serviceRole existing)).2,
          [.GetServiceAccount ⟨serviceRole.ObjectMeta.Namespace, name⟩,
            .Update (relabeled serviceRole existing)]⟩
      else ⟨none, s, [.GetServiceAccount ⟨serviceRole.ObjectMeta.Namespace, name⟩]⟩ := by
  have hl : sa.ObjectMeta.Labels = some (desiredLabels serviceRole) := by
    rw [SetControllerReference_new] at h
    cases hg : GVKForObject r.Scheme with
    | error err => simp [hg] at h
    | ok gvk =>
      simp only [hg, Except.ok.injEq] at h
      rw [← h]
      rfl
  by_cases hu : needsUpdate serviceRole existing = true
  · have hu' := hu
    unfold needsUpdate at hu'
    rcases hc : r.Client.Update s (relabeled serviceRole existing) with ⟨_ | e', s'⟩ <;>
      simp [ensureServiceAccount, h, hget, hl, hu, hu', relabeled] at hc ⊢ <;> simp [hc]
  · have hu' := hu
    unfold needsUpdate at hu'
    simp [ensureServiceAccount, h, hget, hl, hu, hu']

theorem reconcile_role_error {σ : Type} (r : ServiceRoleReconciler σ) (req : Request) (s : σ)
    (e : Err) (h : r.Client.GetServiceRole s req.NamespacedName = .error e) :
    Reconcile r req s =
      ⟨({}, if IsNotFound e then none else some e), s,
        [.GetServiceRole req.NamespacedName]⟩ := by
  by_cases hnf : IsNotFound e = true <;> simp [Reconcile, h, hnf]

theorem reconcile_role_ok {σ : Type} (r : ServiceRoleReconciler σ) (req : Request) (s : σ)
    (role : ServiceRole) (h : r.Client.GetServiceRole s req.NamespacedName = .ok role) :
    Reconcile r req s =
      ⟨({}, (ensureServiceAccount r role (role.ObjectMeta.Name ++ "-sa") s).value),
        (ensureServiceAccount r role (role.ObjectMeta.Name ++ "-sa") s).state,
        .GetServiceRole req.NamespacedName ::
          (ensureServiceAccount r role (role.ObjectMeta.Name ++ "-sa") s).calls⟩ := by
  cases hv : (ensureServiceAccount r role (role.ObjectMeta.Name ++ "-sa") s).value <;>
    simp [Reconcile, h, hv]

/-- C2. When the `Get` of the ServiceRole fails with NotFound, `Reconcile` returns the
empty result and a nil error, its only client call is that `Get` (no ServiceAccount
`Get`, `Create` or `Update`), and the cluster state is unchanged. -/
theorem reconcile_primary_not_found {σ : Type} (r : ServiceRoleReconciler σ) (req : Request)
    (s : σ) (e : Err) (hget : r.Client.GetServiceRole s req.NamespacedName = .error e)
    (hnf : IsNotFound e = true) :
    (Reconcile r req s).value = (⟨false, 0⟩, none) ∧
    (Reconcile r req s).calls = [.GetServiceRole req.NamespacedName] ∧
    (Reconcile r req s).state = s := by
  rw [reconcile_role_error r req s e hget]
  simp [hnf]

/-- Witness for C2: the request `team-a/billing` on a cluster without that role. -/
theorem reconcile_primary_not_found_witness :
    (Reconcile directReconciler billingRequest {}).value = (⟨false, 0⟩, none) ∧
    (Reconcile directReconciler billingRequest {}).calls
      = [.GetServiceRole billingRequest.NamespacedName] ∧
    (Reconcile directReconciler billingRequest {}).state = {} :=
  reconcile_primary_not_found directReconciler billingRequest {}
    (.status .NotFound ("serviceroles.iam.craft-conf.com not found: " ++ "billing"))
    (by rfl) (by rfl)

/-- C7. For every request and every behaviour of the client, `Reconcile` returns a nil
error exactly when the ServiceRole `Get` returned NotFound, or it succeeded, the
controller reference was set, and either the ServiceAccount `Get` returned NotFound and
the `Create` succeeded, or the `Get` succeeded and the `Update`, if one was needed,
succeeded. The result never asks for a requeue. In each failing case the returned error
is the error of the failing call: unchanged for the ServiceRole `Get`, wrapped with
"failed to set controller reference", "failed to get ServiceAccount", "failed to create
ServiceAccount" or "failed to update ServiceAccount" for the calls of the Ensurer. -/
theorem reconcile_no_error_swallowed {σ : Type} (r : ServiceRoleReconciler σ) (req : Request)
    (s : σ) :
    ((Reconcile r req s).value.2 = none ↔
      (∃ e, r.Client.GetServiceRole s req.NamespacedName = .error e ∧ IsNotFound e = true) ∨
      (∃ role sa, r.Client.GetServiceRole s req.NamespacedName = .ok role ∧
        SetControllerReference role (newServiceAccount role (role.ObjectMeta.Name ++ "-sa"))
          r.Scheme = .ok sa ∧
        ((∃ e, r.Client.GetServiceAccount s
              ⟨role.ObjectMeta.Namespace, role.ObjectMeta.Name ++ "-sa"⟩ = .error e ∧
            IsNotFound e = true ∧ (r.Client.Create s sa).1 = none) ∨
         (∃ existing, r.Client.GetServiceAccount s
              ⟨role.ObjectMeta.Namespace, role.ObjectMeta.Name ++ "-sa"⟩ = .ok existing ∧
            (needsUpdate role existing = false ∨
              (r.Client.Update s (relabeled role existing)).1 = none))))) ∧
    (Reconcile r req s).value.1 = ⟨false, 0⟩ ∧
    (∀ e, r.Client.GetServiceRole s req.NamespacedName = .error e → IsNotFound e = false →
      (Reconcile r req s).value.2 = some e) ∧
    (∀ role, r.Client.GetServiceRole s req.NamespacedName = .ok role →
      (∀ e, SetControllerReference role
          (newServiceAccount role (role.ObjectMeta.Name ++ "-sa")) r.Scheme = .error e →
        (Reconcile r req s).value.2
          = some (Err.wrap "failed to set controller reference" e)) ∧
      (∀ sa, SetControllerReference role
          (newServiceAccount role (role.ObjectMeta.Name ++ "-sa")) r.Scheme = .ok sa →
        (∀ e, r.Client.GetServiceAccount s
            ⟨role.ObjectMeta.Namespace, role.ObjectMeta.Name ++ "-sa"⟩ = .error e →
          IsNotFound e = false →
          (Reconcile r req s).value.2 = some (Err.wrap "failed to get ServiceAccount" e)) ∧
        (∀ e e', r.Client.GetServiceAccount s
            ⟨role.ObjectMeta.Namespace, role.ObjectMeta.Name ++ "-sa"⟩ = .error e →
          IsNotFound e = true → (r.Client.Create s sa).1 = some e' →
          (Reconcile r req s).value.2 = some (Err.wrap "failed to create ServiceAccount" e')) ∧
        (∀ existing e', r.Client.GetServiceAccount s
            ⟨role.ObjectMeta.Namespace, role.ObjectMeta.Name ++ "-sa"⟩ = .ok existing →
          needsUpdate role existing = true →
          (r.Client.Update s (relabeled role existing)).1 = some e' →
          (Reconcile r req s).value.2
            = some (Err.wrap "failed to update ServiceAccount" e')))) := by
  cases hrole : r.Client.GetServiceRole s req.NamespacedName with
  | error e =>
    rw [reconcile_role_error r req s e hrole]
    by_cases hnf : IsNotFound e = true <;> simp [hnf]
  | ok role =>
    rw [reconcile_role_ok r req s role hrole]
    cases hset : SetControllerReference role
        (newServiceAccount role (role.ObjectMeta.Name ++ "-sa")) r.Scheme with
    | error e =>
      rw [ensure_setref_error r role _ s e hset]
      simp [hset, Errorf]
    | ok sa =>
      cases hget : r.Client.GetServiceAccount s
          ⟨role.ObjectMeta.Namespace, role.ObjectMeta.Name ++ "-sa"⟩ with
      | error e =>
        by_cases hnf : IsNotFound e = true
        · rw [ensure_create r role _ s sa e hset hget hnf]
          cases hc : (r.Client.Create s sa).1 <;> simp [hnf, hset, hget, hc, Errorf]
        · have hnf' : IsNotFound e = false := by simpa using hnf
          rw [ensure_get_error r role _ s sa e hset hget hnf']
          simp [hnf', hset, hget, Errorf]
          intro e1 e2 he h1
          subst he
          simp [hnf'] at h1
      | ok existing =>
        rw [ensure_found r role _ s sa existing hset hget]
        by_cases hu : needsUpdate role existing = true
        · cases hc : (r.Client.Update s (relabeled role existing)).1 <;>
            simp [hu, hset, hget, hc, Errorf] <;>
            (intro ex e2 he _ h2; subst he; simp [hc] at h2 ⊢; try rw [h2])
        · have hu' : needsUpdate role existing = false := by simpa using hu
          simp [hu', hset, hget, Errorf]
          intro ex e2 he h2
          subst he
          simp [hu'] at h2

/-- Witness for C7: one run per failing call. A timeout on the ServiceRole `Get` comes
back unchanged; an empty scheme, a forbidden ServiceAccount `Get`, a `Create` that meets
the account the cache has not seen, and an `Update` against a newer resource version
each come back wrapped with the context of the call, and the text of the last error
starts with that context. -/
theorem reconcile_no_error_swallowed_witness :
    (Reconcile ⟨scriptedClient (.error timeoutError) (.error timeoutError) none none,
        sampleScheme⟩ billingRequest ()).value = (⟨false, 0⟩, some timeoutError) ∧
    (Reconcile ⟨directClient, ⟨[]⟩⟩ billingRequest ⟨[billing], []⟩).value.2
      = some (.wrap "failed to set controller reference"
          (.plain "no kind is registered for the type v1alpha1.ServiceRole")) ∧
    (Reconcile ⟨scriptedClient (.ok billing) (.error forbiddenError) none none,
        sampleScheme⟩ billingRequest ()).value.2
      = some (.wrap "failed to get ServiceAccount" forbiddenError) ∧
    (Reconcile cachedReconciler billingRequest staleCache).value.2
      = some (.wrap "failed to create ServiceAccount"
          (.status .AlreadyExists "serviceaccounts already exists: billing-sa")) ∧
    (Reconcile cachedReconciler billingRequest staleVersion).value.2
      = some (.wrap "failed to update ServiceAccount"
          (.status .Conflict "the object has been modified")) ∧
    (Err.wrap "failed to update ServiceAccount"
        (.status .Conflict "the object has been modified")).Error
      = "failed to update ServiceAccount: the object has been modified" :=
  ⟨Prod.ext
      (reconcile_no_error_swallowed ⟨scriptedClient (.error timeoutError)
        (.error timeoutError) none none, sampleScheme⟩ billingRequest ()).2.1
      ((reconcile_no_error_swallowed ⟨scriptedClient (.error timeoutError)
        (.error timeoutError) none none, sampleScheme⟩ billingRequest ()).2.2.1
        timeoutError (by rfl) (by rfl)),
    ((reconcile_no_error_swallowed ⟨directClient, ⟨[]⟩⟩ billingRequest
      ⟨[billing], []⟩).2.2.2 billing (by rfl)).1 _ (by rfl),
    (((reconcile_no_error_swallowed ⟨scriptedClient (.ok billing) (.error forbiddenError)
      none none, sampleScheme⟩ billingRequest ()).2.2.2 billing (by rfl)).2
      (managedServiceAccount serviceRoleKind billing "billing-sa") (by rfl)).1
      forbiddenError (by rfl) (by rfl),
    (((reconcile_no_error_swallowed cachedReconciler billingRequest staleCache).2.2.2
      billing (by rfl)).2
      (managedServiceAccount serviceRoleKind billing "billing-sa") (by rfl)).2.1
      (.status .NotFound "serviceaccounts not found: billing-sa") _
      (by rfl) (by rfl) (by rfl),
    (((reconcile_no_error_swallowed cachedReconciler billingRequest staleVersion).2.2.2
      billing (by rfl)).2
      (managedServiceAccount serviceRoleKind billing "billing-sa") (by rfl)).2.2
      foreignAccount _ (by rfl) (by rfl) (by rfl),
    by decide⟩

/-! ## The merge loop on the managed labels -/

theorem mapIndex_mapAssign_ne (m : List (String × String)) (key value other : String)
    (hne : other ≠ key) : mapIndex (mapAssign m key value) other = mapIndex m other := by
  unfold mapIndex
  rw [lookup_mapAssign_ne m key value other hne]

theorem mapIndex_eq_iff (m : List (String × String)) (key value : String) (hv : value ≠ "") :
    mapIndex m key = value ↔ m.lookup key = some value := by
  unfold mapIndex
  cases h : m.lookup key with
  | none => simpa using fun e => hv e.symm
  | some x => simp

/-- The flag `updated` after the loop over two keys. -/
theorem mergeLabels_flag (k1 v1 k2 v2 : String) (m : List (String × String)) :
    (mergeLabels [(k1, v1), (k2, v2)] m).2 = true ↔
      (mapIndex m k1 ≠ v1 ∨ mapIndex m k2 ≠ v2) := by
  rw [mergeLabels_pair]
  by_cases h1 : mapIndex m k1 = v1
  · by_cases h2 : mapIndex m k2 = v2 <;> simp [h1, h2]
  · by_cases h2 : mapIndex (mapAssign m k1 v1) k2 = v2 <;> simp [h1, h2]

/-- The label map after the loop over two distinct keys, read key by key. -/
theorem mergeLabels_lookup (k1 v1 k2 v2 : String) (m : List (String × String)) (hk : k1 ≠ k2)
    (k : String) :
    (mergeLabels [(k1, v1), (k2, v2)] m).1.lookup k =
      if k = k1 then (if mapIndex m k1 ≠ v1 then some v1 else m.lookup k1)
      else if k = k2 then (if mapIndex m k2 ≠ v2 then some v2 else m.lookup k2)
      else m.lookup k := by
  rw [mergeLabels_pair]
  have hk' : k2 ≠ k1 := fun e => hk e.symm
  have h21 : mapIndex (mapAssign m k1 v1) k2 = mapIndex m k2 :=
    mapIndex_mapAssign_ne m k1 v1 k2 hk'
  rw [h21]
  by_cases e1 : k = k1
  · subst e1
    by_cases h1 : mapIndex m k = v1 <;> by_cases h2 : mapIndex m k2 = v2 <;>
      simp [h1, h2, lookup_mapAssign_self, lookup_mapAssign_ne _ k2 v2 k hk]
  · by_cases e2 : k = k2
    · subst e2
      by_cases h1 : mapIndex m k1 = v1 <;> by_cases h2 : mapIndex m k = v2 <;>
        simp [h1, h2, e1, lookup_mapAssign_self, lookup_mapAssign_ne _ k1 v1 k e1]
    · by_cases h1 : mapIndex m k1 = v1 <;> by_cases h2 : mapIndex m k2 = v2 <;>
        simp [h1, h2, e1, e2, lookup_mapAssign_ne _ k1 v1 k e1, lookup_mapAssign_ne _ k2 v2 k e2]

/-- The loop visits the two entries of a Go map in no fixed order: both orders give the
same flag and the same label map, read key by key. -/
theorem mergeLabels_order (k1 v1 k2 v2 : String) (m : List (String × String)) (hk : k1 ≠ k2) :
    (mergeLabels [(k2, v2), (k1, v1)] m).2 = (mergeLabels [(k1, v1), (k2, v2)] m).2 ∧
    ∀ k, (mergeLabels [(k2, v2), (k1, v1)] m).1.lookup k
      = (mergeLabels [(k1, v1), (k2, v2)] m).1.lookup k := by
  have hk' : k2 ≠ k1 := fun e => hk e.symm
  constructor
  · rw [Bool.eq_iff_iff, mergeLabels_flag, mergeLabels_flag]
    exact Or.comm
  · intro k
    rw [mergeLabels_lookup _ _ _ _ _ hk, mergeLabels_lookup _ _ _ _ _ hk']
    by_cases e1 : k = k1
    · subst e1
      simp [hk]
    · simp [e1]

theorem needsUpdate_iff (serviceRole : ServiceRole) (existing : ServiceAccount) :
    needsUpdate serviceRole existing = true ↔
      (mapIndex (existing.ObjectMeta.Labels.getD []) "app.kubernetes.io/managed-by"
          ≠ "iam-operator" ∨
       mapIndex (existing.ObjectMeta.Labels.getD []) "platform.io/servicerole"
          ≠ serviceRole.ObjectMeta.Name) := by
  unfold needsUpdate desiredLabels
  exact mergeLabels_flag _ _ _ _ _

theorem relabeled_lookup (serviceRole : ServiceRole) (existing : ServiceAccount) (k : String) :
    ((relabeled serviceRole existing).ObjectMeta.Labels.getD []).lookup k =
      if k = "app.kubernetes.io/managed-by" then
        (if mapIndex (existing.ObjectMeta.Labels.getD []) "app.kubernetes.io/managed-by"
            ≠ "iam-operator" then some "iam-operator"
         else (existing.ObjectMeta.Labels.getD []).lookup "app.kubernetes.io/managed-by")
      else if k = "platform.io/servicerole" then
        (if mapIndex (existing.ObjectMeta.Labels.getD []) "platform.io/servicerole"
            ≠ serviceRole.ObjectMeta.Name then some serviceRole.ObjectMeta.Name
         else (existing.ObjectMeta.Labels.getD []).lookup "platform.io/servicerole")
      else (existing.ObjectMeta.Labels.getD []).lookup k := by
  unfold relabeled desiredLabels
  simp only [Option.getD_some]
  exact mergeLabels_lookup _ _ _ _ _ (by decide) k

/-! ## Claims on an existing account -/

/-- On a fetched account `ensureServiceAccount` never creates, and updates at most once,
with the relabeled object. -/
theorem updated_calls_found {σ : Type} (r : ServiceRoleReconciler σ) (serviceRole : ServiceRole)
    (name : String) (s : σ) (sa existing : ServiceAccount)
    (h : SetControllerReference serviceRole (newServiceAccount serviceRole name) r.Scheme
      = .ok sa)
    (hget : r.Client.GetServiceAccount s ⟨serviceRole.ObjectMeta.Namespace, name⟩
      = .ok existing) :
    updated (ensureServiceAccount r serviceRole name s).calls =
      (if needsUpdate serviceRole existing then [relabeled serviceRole existing] else []) ∧
    created (ensureServiceAccount r serviceRole name s).calls = [] := by
  rw [ensure_found r serviceRole name s sa existing h hget]
  by_cases hu : needsUpdate serviceRole existing = true <;>
    simp [hu, updated, created, List.filterMap]

/-- C10. Whenever the `Get` of the ServiceAccount returns an object, every object that
`ensureServiceAccount` passes to `Update` is the fetched object with another label map:
name, namespace, UID, resource version, owner references and the remaining fields are
those of the fetched object, so no owner reference is added to an existing account. -/
theorem update_frame {σ : Type} (r : ServiceRoleReconciler σ) (serviceRole : ServiceRole)
    (name : String) (s : σ) (existing : ServiceAccount)
    (hget : r.Client.GetServiceAccount s ⟨serviceRole.ObjectMeta.Namespace, name⟩
      = .ok existing) :
    ∀ obj ∈ updated (ensureServiceAccount r serviceRole name s).calls,
      obj = { existing with ObjectMeta := { existing.ObjectMeta with
                Labels := obj.ObjectMeta.Labels } } ∧
      obj.ObjectMeta.Name = existing.ObjectMeta.Name ∧
      obj.ObjectMeta.Namespace = existing.ObjectMeta.Namespace ∧
      obj.ObjectMeta.UID = existing.ObjectMeta.UID ∧
      obj.ObjectMeta.ResourceVersion = existing.ObjectMeta.ResourceVersion ∧
      obj.ObjectMeta.OwnerReferences = existing.ObjectMeta.OwnerReferences := by
  intro obj hobj
  cases hset : SetControllerReference serviceRole (newServiceAccount serviceRole name)
      r.Scheme with
  | error e =>
    rw [ensure_setref_error r serviceRole name s e hset] at hobj
    simp [updated] at hobj
  | ok sa =>
    rw [(updated_calls_found r serviceRole name s sa existing hset hget).1] at hobj
    by_cases hu : needsUpdate serviceRole existing = true
    · simp only [hu, if_true, List.mem_singleton] at hobj
      subst hobj
      simp [relabeled]
    · simp [hu] at hobj

/-- Witness for C10: the role `billing` and an unlabelled, unowned `billing-sa`. -/
theorem update_frame_witness :
    updated (ensureServiceAccount directReconciler billing "billing-sa"
        ⟨[billing], [{ ObjectMeta := { Name := "billing-sa", Namespace := "team-a",
                                        ResourceVersion := 7 } }]⟩).calls ≠ [] ∧
    ∀ obj ∈ updated (ensureServiceAccount directReconciler billing "billing-sa"
        ⟨[billing], [{ ObjectMeta := { Name := "billing-sa", Namespace := "team-a",
                                        ResourceVersion := 7 } }]⟩).calls,
      obj = { ({ ObjectMeta := { Name := "billing-sa", Namespace := "team-a",
                                 ResourceVersion := 7 } } : ServiceAccount) with
              ObjectMeta := { Name := "billing-sa", Namespace := "team-a",
                              ResourceVersion := 7, Labels := obj.ObjectMeta.Labels } } ∧
      obj.ObjectMeta.Name = "billing-sa" ∧
      obj.ObjectMeta.Namespace = "team-a" ∧
      obj.ObjectMeta.UID = "" ∧
      obj.ObjectMeta.ResourceVersion = 7 ∧
      obj.ObjectMeta.OwnerReferences = [] :=
  ⟨by decide, update_frame directReconciler billing "billing-sa"
    ⟨[billing], [{ ObjectMeta := { Name := "billing-sa", Namespace := "team-a",
                                    ResourceVersion := 7 } }]⟩
    { ObjectMeta := { Name := "billing-sa", Namespace := "team-a", ResourceVersion := 7 } }
    (by rfl)⟩

/-- C4, as stated, fails twice. With the keys written as in the claim (`servicerole`,
`managed-by`) the one `Update` for role `billing` keeps `servicerole: wrong`, because the
managed keys are `app.kubernetes.io/managed-by` and `platform.io/servicerole`. And for a
role with the empty name an account without the `platform.io/servicerole` key gets no
`Update`, because the loop reads a missing key as the empty string. -/
theorem label_convergence_counterexample :
    (∃ obj, updated (ensureServiceAccount directReconciler billing "billing-sa"
        ⟨[billing], [driftedShortKeys]⟩).calls = [obj] ∧
      (obj.ObjectMeta.Labels.getD []).lookup "servicerole" = some "wrong") ∧
    ((halfLabelled.ObjectMeta.Labels.getD []).lookup "platform.io/servicerole" = none ∧
      updated (ensureServiceAccount directReconciler unnamedRole "-sa"
        ⟨[unnamedRole], [halfLabelled]⟩).calls = []) := by
  refine ⟨⟨_, by rfl, by rfl⟩, by rfl, by rfl⟩

/-- C4, amended. For every ServiceRole with a non-empty name whose controller reference
can be set, and every ServiceAccount returned by `Get` with label map `L` (nil included),
`ensureServiceAccount` issues an `Update` if and only if `L` lacks one of the keys
`app.kubernetes.io/managed-by`, `platform.io/servicerole` or maps it to another value
than `iam-operator`, respectively the role name. When it does, it issues exactly one
`Update`, whose label map sends both managed keys to these values and every other key
to what `L` holds for it (nothing when `L` has no such key). -/
theorem label_convergence {σ : Type} (r : ServiceRoleReconciler σ) (serviceRole : ServiceRole)
    (name : String) (s : σ) (sa existing : ServiceAccount)
    (hname : serviceRole.ObjectMeta.Name ≠ "")
    (hset : SetControllerReference serviceRole (newServiceAccount serviceRole name) r.Scheme
      = .ok sa)
    (hget : r.Client.GetServiceAccount s ⟨serviceRole.ObjectMeta.Namespace, name⟩
      = .ok existing) :
    (updated (ensureServiceAccount r serviceRole name s).calls ≠ [] ↔
      ((existing.ObjectMeta.Labels.getD []).lookup "app.kubernetes.io/managed-by"
          ≠ some "iam-operator" ∨
       (existing.ObjectMeta.Labels.getD []).lookup "platform.io/servicerole"
          ≠ some serviceRole.ObjectMeta.Name)) ∧
    (updated (ensureServiceAccount r serviceRole name s).calls ≠ [] →
      ∃ obj, updated (ensureServiceAccount r serviceRole name s).calls = [obj] ∧
        (obj.ObjectMeta.Labels.getD []).lookup "app.kubernetes.io/managed-by"
          = some "iam-operator" ∧
        (obj.ObjectMeta.Labels.getD []).lookup "platform.io/servicerole"
          = some serviceRole.ObjectMeta.Name ∧
        ∀ k, k ≠ "app.kubernetes.io/managed-by" → k ≠ "platform.io/servicerole" →
          (obj.ObjectMeta.Labels.getD []).lookup k
            = (existing.ObjectMeta.Labels.getD []).lookup k) := by
  have hcalls := (updated_calls_found r serviceRole name s sa existing hset hget).1
  have hiff := needsUpdate_iff serviceRole existing
  have h1 := mapIndex_eq_iff (existing.ObjectMeta.Labels.getD [])
    "app.kubernetes.io/managed-by" "iam-operator" (by decide)
  have h2 := mapIndex_eq_iff (existing.ObjectMeta.Labels.getD [])
    "platform.io/servicerole" serviceRole.ObjectMeta.Name hname
  rw [ne_eq, ne_eq, h1, h2] at hiff
  rw [hcalls]
  by_cases hu : needsUpdate serviceRole existing = true
  · refine ⟨by simpa [hu] using hiff.mp hu, fun _ => ⟨relabeled serviceRole existing, ?_⟩⟩
    refine ⟨by simp [hu], ?_, ?_, ?_⟩
    · rw [relabeled_lookup]
      by_cases c1 : mapIndex (existing.ObjectMeta.Labels.getD [])
          "app.kubernetes.io/managed-by" = "iam-operator"
      · simp [c1, h1.mp c1]
      · simp [c1]
    · rw [relabeled_lookup]
      by_cases c2 : mapIndex (existing.ObjectMeta.Labels.getD [])
          "platform.io/servicerole" = serviceRole.ObjectMeta.Name
      · simp [c2, h2.mp c2]
      · simp [c2]
    · intro k hk1 hk2
      rw [relabeled_lookup]
      simp [hk1, hk2]
  · have hno : ¬((existing.ObjectMeta.Labels.getD []).lookup "app.kubernetes.io/managed-by"
          ≠ some "iam-operator" ∨
        (existing.ObjectMeta.Labels.getD []).lookup "platform.io/servicerole"
          ≠ some serviceRole.ObjectMeta.Name) := fun h => hu (hiff.mpr h)
    simp [hu, hno]

/-- Witness for C4: role `billing` and the drifted account of the scenario, under the
managed keys; the one `Update` restores `platform.io/servicerole: billing` and keeps
`team: finance`. -/
theorem label_convergence_witness :
    (updated (ensureServiceAccount directReconciler billing "billing-sa"
        ⟨[billing], [driftedAccount]⟩).calls ≠ [] ↔
      ((driftedAccount.ObjectMeta.Labels.getD []).lookup "app.kubernetes.io/managed-by"
          ≠ some "iam-operator" ∨
       (driftedAccount.ObjectMeta.Labels.getD []).lookup "platform.io/servicerole"
          ≠ some "billing")) ∧
    (updated (ensureServiceAccount directReconciler billing "billing-sa"
        ⟨[billing], [driftedAccount]⟩).calls ≠ [] →
      ∃ obj, updated (ensureServiceAccount directReconciler billing "billing-sa"
          ⟨[billing], [driftedAccount]⟩).calls = [obj] ∧
        (obj.ObjectMeta.Labels.getD []).lookup "app.kubernetes.io/managed-by"
          = some "iam-operator" ∧
        (obj.ObjectMeta.Labels.getD []).lookup "platform.io/servicerole" = some "billing" ∧
        ∀ k, k ≠ "app.kubernetes.io/managed-by" → k ≠ "platform.io/servicerole" →
          (obj.ObjectMeta.Labels.getD []).lookup k
            = (driftedAccount.ObjectMeta.Labels.getD []).lookup k) :=
  label_convergence directReconciler billing "billing-sa" ⟨[billing], [driftedAccount]⟩
    { newServiceAccount billing "billing-sa" with
      ObjectMeta := { (newServiceAccount billing "billing-sa").ObjectMeta with
        OwnerReferences := [controllerRef serviceRoleKind billing.ObjectMeta] } }
    driftedAccount (by decide) (by rfl) (by rfl)

/-! ## Claims on the create path -/

theorem SetControllerReference_ok (serviceRole : ServiceRole) (name : String) (scheme : Scheme)
    (gvk : GroupVersionKind) (hgvk : GVKForObject scheme = .ok gvk) :
    SetControllerReference serviceRole (newServiceAccount serviceRole name) scheme =
      .ok { ObjectMeta :=
              { Name := name
                Namespace := serviceRole.ObjectMeta.Namespace
                Labels := some (desiredLabels serviceRole)
                OwnerReferences := [controllerRef gvk serviceRole.ObjectMeta] } } := by
  rw [SetControllerReference_new, hgvk]
  rfl

/-- C1, as stated, fails on the label keys: the account created for
`team-a/billing` has no label `managed-by` and no label `servicerole`; its label map is
not the one the claim writes. -/
theorem create_from_empty_counterexample :
    ∃ sa, created (Reconcile directReconciler billingRequest ⟨[billing], []⟩).calls = [sa] ∧
      (sa.ObjectMeta.Labels.getD []).lookup "managed-by" = none ∧
      (sa.ObjectMeta.Labels.getD []).lookup "servicerole" = none ∧
      sa.ObjectMeta.Labels ≠ some [("managed-by", "iam-operator"), ("servicerole", "billing")] :=
  ⟨_, by rfl, by rfl, by rfl, by decide⟩

/-- C1, amended. For every ServiceRole R returned by the `Get` of the request, with its
kind registered in the scheme, and every cluster state whose `Get` of the account
{R.namespace, R.name + "-sa"} answers NotFound, a `Reconcile` whose `Create` succeeds
returns the empty result and a nil error and issues exactly one `Create` and no
`Update`. The created account has namespace R.namespace, name R.name + "-sa", label map
exactly {app.kubernetes.io/managed-by: iam-operator, platform.io/servicerole: R.name},
and exactly one owner reference: to R (kind, name, UID), with controller = true and
block-owner-deletion = true. -/
theorem create_from_empty {σ : Type} (r : ServiceRoleReconciler σ) (req : Request) (s : σ)
    (role : ServiceRole) (gvk : GroupVersionKind) (e : Err)
    (hrole : r.Client.GetServiceRole s req.NamespacedName = .ok role)
    (hgvk : GVKForObject r.Scheme = .ok gvk)
    (hget : r.Client.GetServiceAccount s
      ⟨role.ObjectMeta.Namespace, role.ObjectMeta.Name ++ "-sa"⟩ = .error e)
    (hnf : IsNotFound e = true)
    (hcreate : ∀ sa, SetControllerReference role
        (newServiceAccount role (role.ObjectMeta.Name ++ "-sa")) r.Scheme = .ok sa →
      (r.Client.Create s sa).1 = none) :
    (Reconcile r req s).value = (⟨false, 0⟩, none) ∧
    updated (Reconcile r req s).calls = [] ∧
    ∃ sa, created (Reconcile r req s).calls = [sa] ∧
      sa.ObjectMeta.Namespace = role.ObjectMeta.Namespace ∧
      sa.ObjectMeta.Name = role.ObjectMeta.Name ++ "-sa" ∧
      sa.ObjectMeta.Labels = some [("app.kubernetes.io/managed-by", "iam-operator"),
                                   ("platform.io/servicerole", role.ObjectMeta.Name)] ∧
      sa.ObjectMeta.OwnerReferences =
        [{ APIVersion := gvk.apiVersion, Kind := gvk.Kind, Name := role.ObjectMeta.Name,
           UID := role.ObjectMeta.UID, Controller := some true,
           BlockOwnerDeletion := some true }] := by
  have hset := SetControllerReference_ok role (role.ObjectMeta.Name ++ "-sa") r.Scheme gvk hgvk
  rw [reconcile_role_ok r req s role hrole, ensure_create r role _ s _ e hset hget hnf,
    hcreate _ hset]
  refine ⟨by simp, by simp [updated, List.filterMap],
    { ObjectMeta :=
        { Name := role.ObjectMeta.Name ++ "-sa"
          Namespace := role.ObjectMeta.Namespace
          Labels := some (desiredLabels role)
          OwnerReferences := [controllerRef gvk role.ObjectMeta] } }, ?_, rfl, rfl, rfl, rfl⟩
  simp [created, List.filterMap]

/-- Witness for C1: role `team-a/billing` on a cluster without accounts. -/
theorem create_from_empty_witness :
    (Reconcile directReconciler billingRequest ⟨[billing], []⟩).value = (⟨false, 0⟩, none) ∧
    updated (Reconcile directReconciler billingRequest ⟨[billing], []⟩).calls = [] ∧
    ∃ sa, created (Reconcile directReconciler billingRequest ⟨[billing], []⟩).calls = [sa] ∧
      sa.ObjectMeta.Namespace = "team-a" ∧
      sa.ObjectMeta.Name = "billing" ++ "-sa" ∧
      sa.ObjectMeta.Labels = some [("app.kubernetes.io/managed-by", "iam-operator"),
                                   ("platform.io/servicerole", "billing")] ∧
      sa.ObjectMeta.OwnerReferences =
        [{ APIVersion := serviceRoleKind.apiVersion, Kind := "ServiceRole", Name := "billing",
           UID := "uid-billing", Controller := some true,
           BlockOwnerDeletion := some true }] :=
  create_from_empty directReconciler billingRequest ⟨[billing], []⟩ billing serviceRoleKind
    (.status .NotFound ("serviceaccounts not found: " ++ "billing-sa"))
    (by rfl) (by rfl) (by rfl) (by rfl)
    (by
      intro sa h
      rw [SetControllerReference_ok billing _ _ serviceRoleKind (by rfl)] at h
      cases h
      rfl)

/-- C6, as stated, fails: the server already holds `billing-sa` owned by `billing`, the
cache has not seen it, so `Get` answers NotFound and `Create` answers AlreadyExists; the
claim asks for nil, `ensureServiceAccount` returns the wrapped create error. -/
theorem create_race_counterexample :
    staleCache.server.account ⟨"team-a", "billing-sa"⟩ = some managedAccount ∧
    ownedBy serviceRoleKind billing managedAccount = true ∧
    (∃ e, cachedClient.GetServiceAccount staleCache ⟨"team-a", "billing-sa"⟩ = .error e ∧
      IsNotFound e = true) ∧
    (ensureServiceAccount cachedReconciler billing "billing-sa" staleCache).value =
      some (.wrap "failed to create ServiceAccount"
        (.status .AlreadyExists "serviceaccounts already exists: billing-sa")) ∧
    (ensureServiceAccount cachedReconciler billing "billing-sa" staleCache).value ≠ none := by
  refine ⟨by rfl, by rfl, ⟨_, by rfl, by rfl⟩, by rfl, by decide⟩

/-- C6, amended. For every ServiceRole, when the ServiceAccount `Get` answers NotFound
and the following `Create` fails with an error (AlreadyExists included),
`ensureServiceAccount` returns that error wrapped with "failed to create
ServiceAccount", whoever owns the conflicting account; it issues the `Get` and the
`Create` and nothing else. -/
theorem create_failure_returned {σ : Type} (r : ServiceRoleReconciler σ)
    (serviceRole : ServiceRole) (name : String) (s : σ) (sa : ServiceAccount) (e e' : Err)
    (hset : SetControllerReference serviceRole (newServiceAccount serviceRole name) r.Scheme
      = .ok sa)
    (hget : r.Client.GetServiceAccount s ⟨serviceRole.ObjectMeta.Namespace, name⟩ = .error e)
    (hnf : IsNotFound e = true)
    (hcreate : (r.Client.Create s sa).1 = some e') :
    (ensureServiceAccount r serviceRole name s).value
      = some (.wrap "failed to create ServiceAccount" e') ∧
    (ensureServiceAccount r serviceRole name s).calls
      = [.GetServiceAccount ⟨serviceRole.ObjectMeta.Namespace, name⟩, .Create sa] := by
  rw [ensure_create r serviceRole name s sa e hset hget hnf, hcreate]
  simp [Errorf]

/-- Witness for C6: the stale cache, where the conflicting account is owned by the role. -/
theorem create_failure_returned_witness :
    (ensureServiceAccount cachedReconciler billing "billing-sa" staleCache).value
      = some (.wrap "failed to create ServiceAccount"
          (.status .AlreadyExists ("serviceaccounts already exists: " ++ "billing-sa"))) ∧
    (ensureServiceAccount cachedReconciler billing "billing-sa" staleCache).calls
      = [.GetServiceAccount ⟨"team-a", "billing-sa"⟩,
         .Create { ObjectMeta :=
              { Name := "billing-sa"
                Namespace := "team-a"
                Labels := some (desiredLabels billing)
                OwnerReferences := [controllerRef serviceRoleKind billing.ObjectMeta] } }] :=
  create_failure_returned cachedReconciler billing "billing-sa" staleCache _
    (.status .NotFound ("serviceaccounts not found: " ++ "billing-sa")) _
    (SetControllerReference_ok billing "billing-sa" sampleScheme serviceRoleKind (by rfl))
    (by rfl) (by rfl) (by rfl)

/-! ## The in-memory API server -/

theorem account_key (c : Cluster) (key : NamespacedName) (o : ServiceAccount)
    (h : c.account key = some o) : o.ObjectMeta.key = key := by
  unfold Cluster.account at h
  have := List.find?_some h
  simpa using this

theorem find_replaceAccount (obj : ServiceAccount) (l : List ServiceAccount)
    (stored : ServiceAccount)
    (h : l.find? (fun o => o.ObjectMeta.key == obj.ObjectMeta.key) = some stored) :
    (replaceAccount obj l).find? (fun o => o.ObjectMeta.key == obj.ObjectMeta.key)
      = some obj := by
  induction l with
  | nil => simp at h
  | cons o rest ih =>
    by_cases ho : o.ObjectMeta.key = obj.ObjectMeta.key
    · simp [replaceAccount, ho]
    · have ho' : (o.ObjectMeta.key == obj.ObjectMeta.key) = false := by simpa using ho
      rw [List.find?_cons_of_neg _ (by simpa using ho)] at h
      simp only [replaceAccount, ho', Bool.false_eq_true, if_false]
      rw [List.find?_cons_of_neg _ (by simpa using ho)]
      exact ih h

theorem countP_replaceAccount (obj : ServiceAccount) (l : List ServiceAccount)
    (key : NamespacedName) :
    (replaceAccount obj l).countP (fun o => o.ObjectMeta.key == key)
      = l.countP (fun o => o.ObjectMeta.key == key) := by
  induction l with
  | nil => simp [replaceAccount]
  | cons o rest ih =>
    by_cases ho : o.ObjectMeta.key = obj.ObjectMeta.key
    · simp [replaceAccount, ho, List.countP_cons]
    · have ho' : (o.ObjectMeta.key == obj.ObjectMeta.key) = false := by simpa using ho
      simp [replaceAccount, ho', List.countP_cons, ih]

theorem countP_of_find_none (l : List ServiceAccount) (key : NamespacedName)
    (h : l.find? (fun o => o.ObjectMeta.key == key) = none) :
    l.countP (fun o => o.ObjectMeta.key == key) = 0 := by
  rw [List.countP_eq_zero]
  intro o ho
  have := List.find?_eq_none.mp h o ho
  simpa using this

/-- A successful `Create` on the server: the object is stored, stamped with version 1. -/
theorem Cluster.Create_absent (c : Cluster) (obj : ServiceAccount)
    (h : c.account obj.ObjectMeta.key = none) :
    c.Create obj = (none, c.setAccounts (c.ServiceAccounts ++ [stamped obj 1])) := by
  simp [Cluster.Create, h]

/-- A successful `Update` on the server: the stored object is replaced, with the next
resource version. -/
theorem Cluster.Update_present (c : Cluster) (obj stored : ServiceAccount)
    (h : c.account obj.ObjectMeta.key = some stored)
    (hv : obj.ObjectMeta.ResourceVersion = stored.ObjectMeta.ResourceVersion) :
    c.Update obj = (none, c.setAccounts
      (replaceAccount (stamped obj (stored.ObjectMeta.ResourceVersion + 1))
        c.ServiceAccounts)) := by
  simp [Cluster.Update, h, hv]

theorem account_after_append (c : Cluster) (obj : ServiceAccount)
    (h : c.account obj.ObjectMeta.key = none) :
    (c.setAccounts (c.ServiceAccounts ++ [obj])).account obj.ObjectMeta.key = some obj := by
  unfold Cluster.account at h
  unfold Cluster.account Cluster.setAccounts
  simp [List.find?_append, h]

theorem account_after_replace (c : Cluster) (obj stored : ServiceAccount)
    (h : c.account obj.ObjectMeta.key = some stored) :
    (c.setAccounts (replaceAccount obj c.ServiceAccounts)).account obj.ObjectMeta.key
      = some obj := by
  unfold Cluster.account at h
  unfold Cluster.account Cluster.setAccounts
  exact find_replaceAccount obj c.ServiceAccounts stored h

/-! ## `ensureServiceAccount` against the in-memory API server -/

theorem managedServiceAccount_set (serviceRole : ServiceRole) (name : String) (scheme : Scheme)
    (gvk : GroupVersionKind) (hgvk : GVKForObject scheme = .ok gvk) :
    SetControllerReference serviceRole (newServiceAccount serviceRole name) scheme =
      .ok (managedServiceAccount gvk serviceRole name) :=
  SetControllerReference_ok serviceRole name scheme gvk hgvk

/-- No account at the key: the managed account is created and stored. -/
theorem direct_ensure_absent (scheme : Scheme) (gvk : GroupVersionKind)
    (serviceRole : ServiceRole) (name : String) (s : Cluster)
    (hgvk : GVKForObject scheme = .ok gvk)
    (habs : s.account ⟨serviceRole.ObjectMeta.Namespace, name⟩ = none) :
    ensureServiceAccount ⟨directClient, scheme⟩ serviceRole name s =
      ⟨none,
        s.setAccounts (s.ServiceAccounts ++ [stamped (managedServiceAccount gvk serviceRole name) 1]),
        [.GetServiceAccount ⟨serviceRole.ObjectMeta.Namespace, name⟩,
          .Create (managedServiceAccount gvk serviceRole name)]⟩ := by
  have hget : (⟨directClient, scheme⟩ : ServiceRoleReconciler Cluster).Client.GetServiceAccount s
      ⟨serviceRole.ObjectMeta.Namespace, name⟩ =
      .error (.status .NotFound ("serviceaccounts not found: " ++ name)) := by
    simp [directClient, Cluster.GetServiceAccount, habs]
  rw [ensure_create ⟨directClient, scheme⟩ serviceRole name s _ _
    (managedServiceAccount_set serviceRole name scheme gvk hgvk) hget (by rfl)]
  have hc : s.Create (managedServiceAccount gvk serviceRole name) = _ :=
    Cluster.Create_absent s (managedServiceAccount gvk serviceRole name) habs
  simp only [directClient, hc, Option.map_none']

/-- An account at the key: it is relabeled and replaced when the merge loop changed a
label, and left alone otherwise. -/
theorem direct_ensure_present (scheme : Scheme) (gvk : GroupVersionKind)
    (serviceRole : ServiceRole) (name : String) (s : Cluster) (old : ServiceAccount)
    (hgvk : GVKForObject scheme = .ok gvk)
    (hold : s.account ⟨serviceRole.ObjectMeta.Namespace, name⟩ = some old) :
    ensureServiceAccount ⟨directClient, scheme⟩ serviceRole name s =
      if needsUpdate serviceRole old then
        ⟨none,
          s.setAccounts (replaceAccount
            (stamped (relabeled serviceRole old) (old.ObjectMeta.ResourceVersion + 1))
            s.ServiceAccounts),
          [.GetServiceAccount ⟨serviceRole.ObjectMeta.Namespace, name⟩,
            .Update (relabeled serviceRole old)]⟩
      else ⟨none, s, [.GetServiceAccount ⟨serviceRole.ObjectMeta.Namespace, name⟩]⟩ := by
  have hget : (⟨directClient, scheme⟩ : ServiceRoleReconciler Cluster).Client.GetServiceAccount s
      ⟨serviceRole.ObjectMeta.Namespace, name⟩ = .ok old := by
    simp [directClient, Cluster.GetServiceAccount, hold]
  rw [ensure_found ⟨directClient, scheme⟩ serviceRole name s _ old
    (managedServiceAccount_set serviceRole name scheme gvk hgvk) hget]
  have hkey : (relabeled serviceRole old).ObjectMeta.key
      = ⟨serviceRole.ObjectMeta.Namespace, name⟩ := account_key s _ old hold
  have hu : s.Update (relabeled serviceRole old) = _ :=
    Cluster.Update_present s (relabeled serviceRole old) old (by rw [hkey]; exact hold) rfl
  simp only [directClient, hu, Option.map_none']

/-- After `ensureServiceAccount` succeeded on the server, the account at the key
carries the value the merge loop wants for both managed keys. -/
theorem needsUpdate_managed (gvk : GroupVersionKind) (serviceRole : ServiceRole)
    (name : String) (version : Nat) :
    needsUpdate serviceRole (stamped (managedServiceAccount gvk serviceRole name) version)
      = false := by
  rw [← Bool.not_eq_true, needsUpdate_iff]
  simp [stamped, managedServiceAccount, desiredLabels, mapIndex, List.lookup]

theorem needsUpdate_relabeled (serviceRole : ServiceRole) (old : ServiceAccount)
    (version : Nat) :
    needsUpdate serviceRole (stamped (relabeled serviceRole old) version) = false := by
  rw [← Bool.not_eq_true, needsUpdate_iff]
  have h1 := relabeled_lookup serviceRole old "app.kubernetes.io/managed-by"
  have h2 := relabeled_lookup serviceRole old "platform.io/servicerole"
  have e : (stamped (relabeled serviceRole old) version).ObjectMeta.Labels
      = (relabeled serviceRole old).ObjectMeta.Labels := rfl
  rw [e]
  unfold mapIndex at h1 h2 ⊢
  rw [h1, h2]
  by_cases c1 : ((old.ObjectMeta.Labels.getD []).lookup "app.kubernetes.io/managed-by").getD ""
      = "iam-operator" <;>
    by_cases c2 : ((old.ObjectMeta.Labels.getD []).lookup "platform.io/servicerole").getD ""
      = serviceRole.ObjectMeta.Name <;>
    simp [c1, c2]

/-! ## `Reconcile` against the in-memory API server -/

theorem direct_reconcile_no_role (scheme : Scheme) (req : Request) (s : Cluster)
    (hrole : s.role req.NamespacedName = none) :
    Reconcile ⟨directClient, scheme⟩ req s =
      ⟨(⟨false, 0⟩, none), s, [.GetServiceRole req.NamespacedName]⟩ := by
  have hget : (⟨directClient, scheme⟩ : ServiceRoleReconciler Cluster).Client.GetServiceRole s
      req.NamespacedName = .error (.status .NotFound
        ("serviceroles.iam.craft-conf.com not found: " ++ req.NamespacedName.Name)) := by
    simp [directClient, Cluster.GetServiceRole, hrole]
  rw [reconcile_role_error _ req s _ hget]
  rfl

theorem direct_reconcile_role (scheme : Scheme) (req : Request) (s : Cluster)
    (role : ServiceRole) (hrole : s.role req.NamespacedName = some role) :
    Reconcile ⟨directClient, scheme⟩ req s =
      ⟨({}, (ensureServiceAccount ⟨directClient, scheme⟩ role
              (role.ObjectMeta.Name ++ "-sa") s).value),
        (ensureServiceAccount ⟨directClient, scheme⟩ role (role.ObjectMeta.Name ++ "-sa") s).state,
        .GetServiceRole req.NamespacedName ::
          (ensureServiceAccount ⟨directClient, scheme⟩ role
            (role.ObjectMeta.Name ++ "-sa") s).calls⟩ := by
  have hget : (⟨directClient, scheme⟩ : ServiceRoleReconciler Cluster).Client.GetServiceRole s
      req.NamespacedName = .ok role := by
    simp [directClient, Cluster.GetServiceRole, hrole]
  exact reconcile_role_ok _ req s role hget

/-- A successful `Reconcile` with the role present means the scheme knows its kind. -/
theorem direct_reconcile_gvk (scheme : Scheme) (req : Request) (s : Cluster)
    (role : ServiceRole) (hrole : s.role req.NamespacedName = some role)
    (hok : (Reconcile ⟨directClient, scheme⟩ req s).value.2 = none) :
    ∃ gvk, GVKForObject scheme = .ok gvk := by
  cases hg : GVKForObject scheme with
  | ok gvk => exact ⟨gvk, rfl⟩
  | error e =>
    have hset : SetControllerReference role
        (newServiceAccount role (role.ObjectMeta.Name ++ "-sa")) scheme = .error e := by
      rw [SetControllerReference_new, hg]
    rw [direct_reconcile_role scheme req s role hrole,
      ensure_setref_error ⟨directClient, scheme⟩ role _ s e hset] at hok
    simp at hok

theorem accountsAt_le_one (c : Cluster) (hwf : c.uniqueKeys) (key : NamespacedName) :
    c.accountsAt key ≤ 1 := by
  unfold Cluster.uniqueKeys at hwf
  have h := List.nodup_iff_count_le_one.mp hwf key
  unfold Cluster.accountsAt
  rw [List.count, List.countP_map] at h
  have e : ((fun x => x == key) ∘ fun o : ServiceAccount => o.ObjectMeta.key)
      = fun o => o.ObjectMeta.key == key := rfl
  rwa [e] at h

theorem accountsAt_pos (c : Cluster) (key : NamespacedName) (o : ServiceAccount)
    (h : c.account key = some o) : 0 < c.accountsAt key := by
  unfold Cluster.account at h
  unfold Cluster.accountsAt
  rw [List.countP_pos_iff]
  exact ⟨o, List.mem_of_find?_eq_some h, by simpa using List.find?_some h⟩

/-! ## Claims on the cluster after `Reconcile` -/

theorem relabeled_managedBy (serviceRole : ServiceRole) (existing : ServiceAccount) :
    ((relabeled serviceRole existing).ObjectMeta.Labels.getD []).lookup
      "app.kubernetes.io/managed-by" = some "iam-operator" := by
  rw [relabeled_lookup]
  by_cases c1 : mapIndex (existing.ObjectMeta.Labels.getD [])
      "app.kubernetes.io/managed-by" = "iam-operator"
  · simp [c1, (mapIndex_eq_iff _ _ _ (by decide)).mp c1]
  · simp [c1]

theorem relabeled_servicerole (serviceRole : ServiceRole) (existing : ServiceAccount)
    (hname : serviceRole.ObjectMeta.Name ≠ "") :
    ((relabeled serviceRole existing).ObjectMeta.Labels.getD []).lookup
      "platform.io/servicerole" = some serviceRole.ObjectMeta.Name := by
  rw [relabeled_lookup]
  by_cases c2 : mapIndex (existing.ObjectMeta.Labels.getD [])
      "platform.io/servicerole" = serviceRole.ObjectMeta.Name
  · simp [c2, (mapIndex_eq_iff _ _ _ hname).mp c2]
  · simp [c2]

theorem relabeled_other (serviceRole : ServiceRole) (existing : ServiceAccount) (k : String)
    (h1 : k ≠ "app.kubernetes.io/managed-by") (h2 : k ≠ "platform.io/servicerole") :
    ((relabeled serviceRole existing).ObjectMeta.Labels.getD []).lookup k
      = (existing.ObjectMeta.Labels.getD []).lookup k := by
  rw [relabeled_lookup]
  simp [h1, h2]

/-- C5, as stated, fails: with the unowned, unlabelled `billing-sa` (resource version 5)
already in `team-a`, `Reconcile` of `team-a/billing` returns a nil error and issues one
`Update` carrying the two managed labels; the foreign account ends with these labels,
still without owner, at resource version 6. With a role of the empty name and an
unowned `-sa` that lacks `platform.io/servicerole`, `Reconcile` also returns a nil
error, this time without any write. -/
theorem name_collision_counterexample :
    (foreignAccount.ObjectMeta.OwnerReferences = [] ∧
      foreignAccount.ObjectMeta.Labels = none ∧
      (Reconcile directReconciler billingRequest ⟨[billing], [foreignAccount]⟩).value.2
        = none ∧
      ∃ obj stored,
        updated (Reconcile directReconciler billingRequest
          ⟨[billing], [foreignAccount]⟩).calls = [obj] ∧
        obj.ObjectMeta.Labels = some [("app.kubernetes.io/managed-by", "iam-operator"),
                                      ("platform.io/servicerole", "billing")] ∧
        (Reconcile directReconciler billingRequest
          ⟨[billing], [foreignAccount]⟩).state.account ⟨"team-a", "billing-sa"⟩
          = some stored ∧
        stored.ObjectMeta.Labels = some [("app.kubernetes.io/managed-by", "iam-operator"),
                                         ("platform.io/servicerole", "billing")] ∧
        stored.ObjectMeta.ResourceVersion = 6 ∧
        stored.ObjectMeta.OwnerReferences = [] ∧
        stored ≠ foreignAccount) ∧
    (halfLabelled.ObjectMeta.OwnerReferences = [] ∧
      (halfLabelled.ObjectMeta.Labels.getD []).lookup "platform.io/servicerole" = none ∧
      (Reconcile directReconciler ⟨⟨"team-a", ""⟩⟩ ⟨[unnamedRole], [halfLabelled]⟩).value.2
        = none ∧
      updated (Reconcile directReconciler ⟨⟨"team-a", ""⟩⟩
        ⟨[unnamedRole], [halfLabelled]⟩).calls = []) := by
  refine ⟨⟨by rfl, by rfl, by rfl, _, _, by rfl, by rfl, by rfl, by rfl, by rfl, by rfl,
    by decide⟩, by rfl, by rfl, by rfl, by rfl⟩

/-- C5, amended. For every ServiceRole R with a non-empty name present in the cluster
(its kind registered in the scheme) and every cluster state in which a ServiceAccount
named R.name + "-sa" already exists in R.namespace with label map L, owned by R or not,
`Reconcile` of R's key returns the empty result and a nil error and issues no `Create`.
It issues an `Update` if and only if L lacks `app.kubernetes.io/managed-by` or
`platform.io/servicerole` or maps one of them to another value than `iam-operator`,
respectively R.name. When it does, it issues exactly one `Update`: the object is the
stored account with another label map, which sends the two managed keys to these values
and every other key to what L holds for it; its owner references are those of the
stored account; and the server then holds that object, at the next resource version,
under the key. When it does not, the cluster is left exactly as it was. -/
theorem name_collision_relabels (scheme : Scheme) (gvk : GroupVersionKind) (req : Request)
    (s : Cluster) (role : ServiceRole) (old : ServiceAccount)
    (hname : role.ObjectMeta.Name ≠ "")
    (hgvk : GVKForObject scheme = .ok gvk)
    (hrole : s.role req.NamespacedName = some role)
    (hold : s.account ⟨role.ObjectMeta.Namespace, role.ObjectMeta.Name ++ "-sa"⟩ = some old) :
    (Reconcile ⟨directClient, scheme⟩ req s).value = (⟨false, 0⟩, none) ∧
    created (Reconcile ⟨directClient, scheme⟩ req s).calls = [] ∧
    (updated (Reconcile ⟨directClient, scheme⟩ req s).calls ≠ [] ↔
      ((old.ObjectMeta.Labels.getD []).lookup "app.kubernetes.io/managed-by"
          ≠ some "iam-operator" ∨
       (old.ObjectMeta.Labels.getD []).lookup "platform.io/servicerole"
          ≠ some role.ObjectMeta.Name)) ∧
    (updated (Reconcile ⟨directClient, scheme⟩ req s).calls ≠ [] →
      ∃ obj, updated (Reconcile ⟨directClient, scheme⟩ req s).calls = [obj] ∧
        obj = { old with ObjectMeta := { old.ObjectMeta with
                  Labels := obj.ObjectMeta.Labels } } ∧
        obj.ObjectMeta.OwnerReferences = old.ObjectMeta.OwnerReferences ∧
        (obj.ObjectMeta.Labels.getD []).lookup "app.kubernetes.io/managed-by"
          = some "iam-operator" ∧
        (obj.ObjectMeta.Labels.getD []).lookup "platform.io/servicerole"
          = some role.ObjectMeta.Name ∧
        (∀ k, k ≠ "app.kubernetes.io/managed-by" → k ≠ "platform.io/servicerole" →
          (obj.ObjectMeta.Labels.getD []).lookup k
            = (old.ObjectMeta.Labels.getD []).lookup k) ∧
        (Reconcile ⟨directClient, scheme⟩ req s).state.account
            ⟨role.ObjectMeta.Namespace, role.ObjectMeta.Name ++ "-sa"⟩
          = some { obj with ObjectMeta := { obj.ObjectMeta with
                     ResourceVersion := old.ObjectMeta.ResourceVersion + 1 } } ∧
        (Reconcile ⟨directClient, scheme⟩ req s).state.ServiceRoles = s.ServiceRoles) ∧
    (updated (Reconcile ⟨directClient, scheme⟩ req s).calls = [] →
      (Reconcile ⟨directClient, scheme⟩ req s).state = s) := by
  have hkey : (stamped (relabeled role old) (old.ObjectMeta.ResourceVersion + 1)).ObjectMeta.key
      = ⟨role.ObjectMeta.Namespace, role.ObjectMeta.Name ++ "-sa"⟩ := account_key s _ old hold
  have hflag : needsUpdate role old = true ↔
      (mapIndex (old.ObjectMeta.Labels.getD []) "app.kubernetes.io/managed-by"
          ≠ "iam-operator" ∨
       mapIndex (old.ObjectMeta.Labels.getD []) "platform.io/servicerole"
          ≠ role.ObjectMeta.Name) := by
    unfold needsUpdate mergeLabels desiredLabels
    by_cases h1 : mapIndex (old.ObjectMeta.Labels.getD []) "app.kubernetes.io/managed-by"
        = "iam-operator"
    · by_cases h2 : mapIndex (old.ObjectMeta.Labels.getD []) "platform.io/servicerole"
          = role.ObjectMeta.Name <;> simp [List.foldl, h1, h2]
    · by_cases h2 : mapIndex (mapAssign (old.ObjectMeta.Labels.getD [])
          "app.kubernetes.io/managed-by" "iam-operator") "platform.io/servicerole"
          = role.ObjectMeta.Name <;> simp [List.foldl, h1, h2]
  have hiff : needsUpdate role old = true ↔
      ((old.ObjectMeta.Labels.getD []).lookup "app.kubernetes.io/managed-by"
          ≠ some "iam-operator" ∨
       (old.ObjectMeta.Labels.getD []).lookup "platform.io/servicerole"
          ≠ some role.ObjectMeta.Name) := by
    rw [ne_eq, ne_eq, mapIndex_eq_iff _ _ _ (by decide), mapIndex_eq_iff _ _ _ hname] at hflag
    exact hflag
  rw [direct_reconcile_role scheme req s role hrole,
    direct_ensure_present scheme gvk role _ s old hgvk hold]
  by_cases hu : needsUpdate role old = true
  · rw [if_pos hu]
    have hupd : updated [Call.GetServiceRole req.NamespacedName,
        Call.GetServiceAccount ⟨role.ObjectMeta.Namespace, role.ObjectMeta.Name ++ "-sa"⟩,
        Call.Update (relabeled role old)] = [relabeled role old] := by
      simp [updated, List.filterMap]
    refine ⟨rfl, by simp [created, List.filterMap], ?_, ?_, ?_⟩
    · simp only [hupd]
      exact ⟨fun _ => hiff.mp hu, fun _ => by simp⟩
    · intro _
      refine ⟨relabeled role old, hupd, rfl, rfl, relabeled_managedBy role old,
        relabeled_servicerole role old hname, relabeled_other role old, ?_, rfl⟩
      have h := account_after_replace s
        (stamped (relabeled role old) (old.ObjectMeta.ResourceVersion + 1)) old
        (by rw [hkey]; exact hold)
      rw [hkey] at h
      exact h
    · intro h
      simp only [hupd] at h
      simp at h
  · rw [if_neg hu]
    have hupd : updated [Call.GetServiceRole req.NamespacedName,
        Call.GetServiceAccount ⟨role.ObjectMeta.Namespace, role.ObjectMeta.Name ++ "-sa"⟩]
        = [] := by
      simp [updated, List.filterMap]
    refine ⟨rfl, by simp [created, List.filterMap], ?_, ?_, ?_⟩
    · simp only [hupd]
      exact ⟨fun h => absurd rfl h, fun h => absurd (hiff.mpr h) hu⟩
    · intro h
      simp only [hupd] at h
      exact absurd rfl h
    · intro _
      rfl

/-- Witness for C5: the unowned `billing-sa` with a stale `platform.io/servicerole` and
an unmanaged `team` label (resource version 3), and the role `team-a/billing`. One
`Update` is issued; it restores `platform.io/servicerole: billing` and keeps
`team: finance`, and the account stays without owner. -/
theorem name_collision_relabels_witness :
    (driftedAccount.ObjectMeta.OwnerReferences = [] ∧
      ∃ obj, updated (Reconcile directReconciler billingRequest
          ⟨[billing], [driftedAccount]⟩).calls = [obj] ∧
        obj.ObjectMeta.Labels = some [("platform.io/servicerole", "billing"),
          ("team", "finance"), ("app.kubernetes.io/managed-by", "iam-operator")]) ∧
    ((Reconcile directReconciler billingRequest ⟨[billing], [driftedAccount]⟩).value
      = (⟨false, 0⟩, none) ∧
    created (Reconcile directReconciler billingRequest ⟨[billing], [driftedAccount]⟩).calls
      = [] ∧
    (updated (Reconcile directReconciler billingRequest
        ⟨[billing], [driftedAccount]⟩).calls ≠ [] ↔
      ((driftedAccount.ObjectMeta.Labels.getD []).lookup "app.kubernetes.io/managed-by"
          ≠ some "iam-operator" ∨
       (driftedAccount.ObjectMeta.Labels.getD []).lookup "platform.io/servicerole"
          ≠ some "billing")) ∧
    (updated (Reconcile directReconciler billingRequest
        ⟨[billing], [driftedAccount]⟩).calls ≠ [] →
      ∃ obj, updated (Reconcile directReconciler billingRequest
          ⟨[billing], [driftedAccount]⟩).calls = [obj] ∧
        obj = { driftedAccount with ObjectMeta := { driftedAccount.ObjectMeta with
                  Labels := obj.ObjectMeta.Labels } } ∧
        obj.ObjectMeta.OwnerReferences = [] ∧
        (obj.ObjectMeta.Labels.getD []).lookup "app.kubernetes.io/managed-by"
          = some "iam-operator" ∧
        (obj.ObjectMeta.Labels.getD []).lookup "platform.io/servicerole" = some "billing" ∧
        (∀ k, k ≠ "app.kubernetes.io/managed-by" → k ≠ "platform.io/servicerole" →
          (obj.ObjectMeta.Labels.getD []).lookup k
            = (driftedAccount.ObjectMeta.Labels.getD []).lookup k) ∧
        (Reconcile directReconciler billingRequest
            ⟨[billing], [driftedAccount]⟩).state.account ⟨"team-a", "billing" ++ "-sa"⟩
          = some { obj with ObjectMeta := { obj.ObjectMeta with
                     ResourceVersion := 3 + 1 } } ∧
        (Reconcile directReconciler billingRequest
            ⟨[billing], [driftedAccount]⟩).state.ServiceRoles = [billing]) ∧
    (updated (Reconcile directReconciler billingRequest
        ⟨[billing], [driftedAccount]⟩).calls = [] →
      (Reconcile directReconciler billingRequest ⟨[billing], [driftedAccount]⟩).state
        = ⟨[billing], [driftedAccount]⟩)) :=
  ⟨⟨by rfl, _, by rfl, by rfl⟩,
    name_collision_relabels sampleScheme serviceRoleKind billingRequest
      ⟨[billing], [driftedAccount]⟩ billing driftedAccount (by decide) (by rfl) (by rfl)
      (by rfl)⟩

/-- C8, as stated, fails on the owner reference (and, for a role with the empty name, on
the label): with the unowned `billing-sa` already stored, `Reconcile` of
`team-a/billing` succeeds and the one account at the key still has no owner reference;
with the empty-named role and an account `-sa` without the `platform.io/servicerole`
key, `Reconcile` succeeds and the key is still missing. -/
theorem ownership_postcondition_counterexample :
    ((Reconcile directReconciler billingRequest ⟨[billing], [foreignAccount]⟩).value.2 = none ∧
      ∃ sa, (Reconcile directReconciler billingRequest
          ⟨[billing], [foreignAccount]⟩).state.account ⟨"team-a", "billing-sa"⟩ = some sa ∧
        sa.ObjectMeta.OwnerReferences = [] ∧
        ownedBy serviceRoleKind billing sa = false) ∧
    ((Reconcile directReconciler ⟨⟨"team-a", ""⟩⟩ ⟨[unnamedRole], [halfLabelled]⟩).value.2
        = none ∧
      ∃ sa, (Reconcile directReconciler ⟨⟨"team-a", ""⟩⟩
          ⟨[unnamedRole], [halfLabelled]⟩).state.account ⟨"team-a", "-sa"⟩ = some sa ∧
        (sa.ObjectMeta.Labels.getD []).lookup "platform.io/servicerole" = none) := by
  refine ⟨⟨by rfl, _, by rfl, by rfl, by rfl⟩, by rfl, _, by rfl, by rfl⟩

/-- C8, amended. For every ServiceRole R and every initial cluster state with one
account per key, after any `Reconcile` of R's key that returns success with R present,
the cluster holds exactly one ServiceAccount named R.name + "-sa" in R.namespace. It
carries `app.kubernetes.io/managed-by: iam-operator` and, for a non-empty R.name,
`platform.io/servicerole: R.name`. When no account was there before, its only owner
reference is the controller reference to R; an account that was already there keeps
the owner references it had. -/
theorem ownership_postcondition (scheme : Scheme) (req : Request) (s : Cluster)
    (role : ServiceRole) (hwf : s.uniqueKeys)
    (hrole : s.role req.NamespacedName = some role)
    (hok : (Reconcile ⟨directClient, scheme⟩ req s).value.2 = none) :
    ∃ gvk sa, GVKForObject scheme = .ok gvk ∧
      (Reconcile ⟨directClient, scheme⟩ req s).state.account
        ⟨role.ObjectMeta.Namespace, role.ObjectMeta.Name ++ "-sa"⟩ = some sa ∧
      (Reconcile ⟨directClient, scheme⟩ req s).state.accountsAt
        ⟨role.ObjectMeta.Namespace, role.ObjectMeta.Name ++ "-sa"⟩ = 1 ∧
      sa.ObjectMeta.Namespace = role.ObjectMeta.Namespace ∧
      sa.ObjectMeta.Name = role.ObjectMeta.Name ++ "-sa" ∧
      (sa.ObjectMeta.Labels.getD []).lookup "app.kubernetes.io/managed-by"
        = some "iam-operator" ∧
      (role.ObjectMeta.Name ≠ "" →
        (sa.ObjectMeta.Labels.getD []).lookup "platform.io/servicerole"
          = some role.ObjectMeta.Name) ∧
      (s.account ⟨role.ObjectMeta.Namespace, role.ObjectMeta.Name ++ "-sa"⟩ = none →
        sa.ObjectMeta.OwnerReferences = [controllerRef gvk role.ObjectMeta] ∧
        ownedBy gvk role sa = true) ∧
      (∀ old, s.account ⟨role.ObjectMeta.Namespace, role.ObjectMeta.Name ++ "-sa"⟩ = some old →
        sa.ObjectMeta.OwnerReferences = old.ObjectMeta.OwnerReferences) := by
  obtain ⟨gvk, hgvk⟩ := direct_reconcile_gvk scheme req s role hrole hok
  refine ⟨gvk, ?_⟩
  rw [direct_reconcile_role scheme req s role hrole]
  cases hacc : s.account ⟨role.ObjectMeta.Namespace, role.ObjectMeta.Name ++ "-sa"⟩ with
  | none =>
    rw [direct_ensure_absent scheme gvk role _ s hgvk hacc]
    refine ⟨stamped (managedServiceAccount gvk role (role.ObjectMeta.Name ++ "-sa")) 1,
      hgvk, ?_, ?_, rfl, rfl, ?_, ?_, ?_, ?_⟩
    · exact account_after_append s _ hacc
    · have h0 := countP_of_find_none s.ServiceAccounts _ hacc
      simp only [Cluster.accountsAt, Cluster.setAccounts, List.countP_append, h0]
      simp [stamped, managedServiceAccount, ObjectMeta.key, List.countP_cons]
    · simp [stamped, managedServiceAccount, desiredLabels, List.lookup]
    · intro _
      simp [stamped, managedServiceAccount, desiredLabels, List.lookup]
    · intro _
      refine ⟨rfl, ?_⟩
      simp [ownedBy, stamped, managedServiceAccount, controllerRef]
    · intro old h
      simp at h
  | some old =>
    have hkey := account_key s _ old hacc
    have hone : s.accountsAt ⟨role.ObjectMeta.Namespace, role.ObjectMeta.Name ++ "-sa"⟩ = 1 :=
      Nat.le_antisymm (accountsAt_le_one s hwf _) (accountsAt_pos s _ old hacc)
    have hk1 := mapIndex_eq_iff (old.ObjectMeta.Labels.getD [])
      "app.kubernetes.io/managed-by" "iam-operator" (by decide)
    have hiff := needsUpdate_iff role old
    rw [direct_ensure_present scheme gvk role _ s old hgvk hacc]
    by_cases hu : needsUpdate role old = true
    · rw [if_pos hu]
      have hkey' : (stamped (relabeled role old)
          (old.ObjectMeta.ResourceVersion + 1)).ObjectMeta.key
          = ⟨role.ObjectMeta.Namespace, role.ObjectMeta.Name ++ "-sa"⟩ := hkey
      refine ⟨stamped (relabeled role old) (old.ObjectMeta.ResourceVersion + 1),
        hgvk, ?_, ?_, ?_, ?_, ?_, ?_, ?_, ?_⟩
      · rw [← hkey']
        exact account_after_replace s _ old (by rw [hkey']; exact hacc)
      · simp only [Cluster.accountsAt, Cluster.setAccounts, countP_replaceAccount]
        exact hone
      · exact congrArg NamespacedName.Namespace hkey
      · exact congrArg NamespacedName.Name hkey
      · have h := relabeled_lookup role old "app.kubernetes.io/managed-by"
        have e : (stamped (relabeled role old)
            (old.ObjectMeta.ResourceVersion + 1)).ObjectMeta.Labels
            = (relabeled role old).ObjectMeta.Labels := rfl
        rw [e, h]
        by_cases c1 : mapIndex (old.ObjectMeta.Labels.getD [])
            "app.kubernetes.io/managed-by" = "iam-operator"
        · simp [c1, hk1.mp c1]
        · simp [c1]
      · intro hname
        have hk2 := mapIndex_eq_iff (old.ObjectMeta.Labels.getD [])
          "platform.io/servicerole" role.ObjectMeta.Name hname
        have h := relabeled_lookup role old "platform.io/servicerole"
        have e : (stamped (relabeled role old)
            (old.ObjectMeta.ResourceVersion + 1)).ObjectMeta.Labels
            = (relabeled role old).ObjectMeta.Labels := rfl
        rw [e, h]
        by_cases c2 : mapIndex (old.ObjectMeta.Labels.getD [])
            "platform.io/servicerole" = role.ObjectMeta.Name
        · simp [c2, hk2.mp c2]
        · simp [c2]
      · intro h
        simp at h
      · intro old' h
        simp only [Option.some.injEq] at h
        subst h
        rfl
    · rw [if_neg hu]
      have hno : ¬(mapIndex (old.ObjectMeta.Labels.getD []) "app.kubernetes.io/managed-by"
            ≠ "iam-operator" ∨
          mapIndex (old.ObjectMeta.Labels.getD []) "platform.io/servicerole"
            ≠ role.ObjectMeta.Name) := fun h => hu (hiff.mpr h)
      rw [not_or, not_not, not_not] at hno
      refine ⟨old, hgvk, hacc, hone, congrArg NamespacedName.Namespace hkey,
        congrArg NamespacedName.Name hkey, hk1.mp hno.1, ?_, ?_, ?_⟩
      · intro hname
        exact (mapIndex_eq_iff _ _ _ hname).mp hno.2
      · intro h
        simp at h
      · intro old' h
        simp only [Option.some.injEq] at h
        subst h
        rfl

/-- Witness for C8: role `team-a/billing` on a cluster without accounts. -/
theorem ownership_postcondition_witness :
    ∃ gvk sa, GVKForObject sampleScheme = .ok gvk ∧
      (Reconcile directReconciler billingRequest ⟨[billing], []⟩).state.account
        ⟨"team-a", "billing" ++ "-sa"⟩ = some sa ∧
      (Reconcile directReconciler billingRequest ⟨[billing], []⟩).state.accountsAt
        ⟨"team-a", "billing" ++ "-sa"⟩ = 1 ∧
      sa.ObjectMeta.Namespace = "team-a" ∧
      sa.ObjectMeta.Name = "billing" ++ "-sa" ∧
      (sa.ObjectMeta.Labels.getD []).lookup "app.kubernetes.io/managed-by"
        = some "iam-operator" ∧
      ("billing" ≠ "" →
        (sa.ObjectMeta.Labels.getD []).lookup "platform.io/servicerole" = some "billing") ∧
      ((⟨[billing], []⟩ : Cluster).account ⟨"team-a", "billing" ++ "-sa"⟩ = none →
        sa.ObjectMeta.OwnerReferences = [controllerRef gvk billing.ObjectMeta] ∧
        ownedBy gvk billing sa = true) ∧
      (∀ old, (⟨[billing], []⟩ : Cluster).account ⟨"team-a", "billing" ++ "-sa"⟩ = some old →
        sa.ObjectMeta.OwnerReferences = old.ObjectMeta.OwnerReferences) :=
  ownership_postcondition sampleScheme billingRequest ⟨[billing], []⟩ billing
    (by decide) (by rfl) (by rfl)

/-! ## Idempotence -/

/-- One more `Reconcile` after a successful one: success, reads only, same state. -/
theorem reconcile_second_pass (scheme : Scheme) (req : Request) (s : Cluster)
    (hok : (Reconcile ⟨directClient, scheme⟩ req s).value.2 = none) :
    (Reconcile ⟨directClient, scheme⟩ req
        (Reconcile ⟨directClient, scheme⟩ req s).state).value = (⟨false, 0⟩, none) ∧
    created (Reconcile ⟨directClient, scheme⟩ req
        (Reconcile ⟨directClient, scheme⟩ req s).state).calls = [] ∧
    updated (Reconcile ⟨directClient, scheme⟩ req
        (Reconcile ⟨directClient, scheme⟩ req s).state).calls = [] ∧
    (Reconcile ⟨directClient, scheme⟩ req
        (Reconcile ⟨directClient, scheme⟩ req s).state).state
      = (Reconcile ⟨directClient, scheme⟩ req s).state := by
  cases hrole : s.role req.NamespacedName with
  | none =>
    rw [direct_reconcile_no_role scheme req s hrole]
    simp only
    rw [direct_reconcile_no_role scheme req s hrole]
    simp [created, updated, List.filterMap]
  | some role =>
    obtain ⟨gvk, hgvk⟩ := direct_reconcile_gvk scheme req s role hrole hok
    have noop : ∀ s' : Cluster, s'.role req.NamespacedName = some role →
        ∀ x, s'.account ⟨role.ObjectMeta.Namespace, role.ObjectMeta.Name ++ "-sa"⟩ = some x →
        needsUpdate role x = false →
        (Reconcile ⟨directClient, scheme⟩ req s').value = (⟨false, 0⟩, none) ∧
        created (Reconcile ⟨directClient, scheme⟩ req s').calls = [] ∧
        updated (Reconcile ⟨directClient, scheme⟩ req s').calls = [] ∧
        (Reconcile ⟨directClient, scheme⟩ req s').state = s' := by
      intro s' hr x hx hn
      rw [direct_reconcile_role scheme req s' role hr,
        direct_ensure_present scheme gvk role _ s' x hgvk hx]
      simp [hn, created, updated, List.filterMap]
    cases hacc : s.account ⟨role.ObjectMeta.Namespace, role.ObjectMeta.Name ++ "-sa"⟩ with
    | none =>
      have hst : (Reconcile ⟨directClient, scheme⟩ req s).state = s.setAccounts
          (s.ServiceAccounts ++
            [stamped (managedServiceAccount gvk role (role.ObjectMeta.Name ++ "-sa")) 1]) := by
        rw [direct_reconcile_role scheme req s role hrole,
          direct_ensure_absent scheme gvk role _ s hgvk hacc]
      rw [hst]
      exact noop _ hrole _ (account_after_append s _ hacc) (needsUpdate_managed gvk role _ 1)
    | some old =>
      have hkey := account_key s _ old hacc
      by_cases hu : needsUpdate role old = true
      · have hst : (Reconcile ⟨directClient, scheme⟩ req s).state = s.setAccounts
            (replaceAccount (stamped (relabeled role old) (old.ObjectMeta.ResourceVersion + 1))
              s.ServiceAccounts) := by
          rw [direct_reconcile_role scheme req s role hrole,
            direct_ensure_present scheme gvk role _ s old hgvk hacc, if_pos hu]
        have hkey' : (stamped (relabeled role old)
            (old.ObjectMeta.ResourceVersion + 1)).ObjectMeta.key
            = ⟨role.ObjectMeta.Namespace, role.ObjectMeta.Name ++ "-sa"⟩ := hkey
        rw [hst]
        refine noop _ hrole (stamped (relabeled role old) (old.ObjectMeta.ResourceVersion + 1))
          ?_ (needsUpdate_relabeled role old _)
        rw [← hkey']
        exact account_after_replace s _ old (by rw [hkey']; exact hacc)
      · have hu' : needsUpdate role old = false := by simpa using hu
        have hst : (Reconcile ⟨directClient, scheme⟩ req s).state = s := by
          rw [direct_reconcile_role scheme req s role hrole,
            direct_ensure_present scheme gvk role _ s old hgvk hacc, if_neg hu]
        rw [hst]
        exact noop s hrole old hacc hu'

/-- C3. For every request and every initial state of the in-memory cluster, if a
`Reconcile` succeeds and nothing else changes the cluster, then every following
`Reconcile` of the same key (the n-th, for every n) starts from the state the first one
left, returns the empty result and a nil error, issues no `Create` and no `Update`, and
leaves that state as it is. -/
theorem reconcile_idempotent (scheme : Scheme) (req : Request) (s : Cluster)
    (hok : (Reconcile ⟨directClient, scheme⟩ req s).value.2 = none) (n : Nat) :
    (fun c => (Reconcile ⟨directClient, scheme⟩ req c).state)^[n]
        (Reconcile ⟨directClient, scheme⟩ req s).state
      = (Reconcile ⟨directClient, scheme⟩ req s).state ∧
    (Reconcile ⟨directClient, scheme⟩ req
      ((fun c => (Reconcile ⟨directClient, scheme⟩ req c).state)^[n]
        (Reconcile ⟨directClient, scheme⟩ req s).state)).value = (⟨false, 0⟩, none) ∧
    created (Reconcile ⟨directClient, scheme⟩ req
      ((fun c => (Reconcile ⟨directClient, scheme⟩ req c).state)^[n]
        (Reconcile ⟨directClient, scheme⟩ req s).state)).calls = [] ∧
    updated (Reconcile ⟨directClient, scheme⟩ req
      ((fun c => (Reconcile ⟨directClient, scheme⟩ req c).state)^[n]
        (Reconcile ⟨directClient, scheme⟩ req s).state)).calls = [] ∧
    (Reconcile ⟨directClient, scheme⟩ req
      ((fun c => (Reconcile ⟨directClient, scheme⟩ req c).state)^[n]
        (Reconcile ⟨directClient, scheme⟩ req s).state)).state
      = (Reconcile ⟨directClient, scheme⟩ req s).state := by
  have h2 := reconcile_second_pass scheme req s hok
  have hfix : ∀ m : Nat, (fun c => (Reconcile ⟨directClient, scheme⟩ req c).state)^[m]
      (Reconcile ⟨directClient, scheme⟩ req s).state
      = (Reconcile ⟨directClient, scheme⟩ req s).state := by
    intro m
    induction m with
    | zero => rfl
    | succ k ih =>
      rw [Function.iterate_succ_apply']
      rw [ih]
      exact h2.2.2.2
  rw [hfix n]
  exact ⟨rfl, h2⟩

/-- Witness for C3: `team-a/billing` reconciled from a cluster without accounts; the
first pass succeeds and the pass after the next one (n = 1) still writes nothing. -/
theorem reconcile_idempotent_witness :
    (Reconcile directReconciler billingRequest ⟨[billing], []⟩).value.2 = none ∧
    ((fun c => (Reconcile directReconciler billingRequest c).state)^[1]
        (Reconcile directReconciler billingRequest ⟨[billing], []⟩).state
      = (Reconcile directReconciler billingRequest ⟨[billing], []⟩).state ∧
    (Reconcile directReconciler billingRequest
      ((fun c => (Reconcile directReconciler billingRequest c).state)^[1]
        (Reconcile directReconciler billingRequest ⟨[billing], []⟩).state)).value
      = (⟨false, 0⟩, none) ∧
    created (Reconcile directReconciler billingRequest
      ((fun c => (Reconcile directReconciler billingRequest c).state)^[1]
        (Reconcile directReconciler billingRequest ⟨[billing], []⟩).state)).calls = [] ∧
    updated (Reconcile directReconciler billingRequest
      ((fun c => (Reconcile directReconciler billingRequest c).state)^[1]
        (Reconcile directReconciler billingRequest ⟨[billing], []⟩).state)).calls = [] ∧
    (Reconcile directReconciler billingRequest
      ((fun c => (Reconcile directReconciler billingRequest c).state)^[1]
        (Reconcile directReconciler billingRequest ⟨[billing], []⟩).state)).state
      = (Reconcile directReconciler billingRequest ⟨[billing], []⟩).state) :=
  ⟨by rfl, reconcile_idempotent sampleScheme billingRequest ⟨[billing], []⟩ (by rfl) 1⟩

/-! ## Registration -/

/-- C9, as stated, fails: the controller registered for the sample manager has
`ServiceRole` as primary type and no owned type, so a change to `billing-sa`, whose
controller owner is the role `billing`, enqueues nothing. The same builder with
`Owns(ServiceAccount)` added would enqueue `team-a/billing`. -/
theorem registration_counterexample :
    GetControllerOf managedAccount.ObjectMeta
      = some (controllerRef serviceRoleKind billing.ObjectMeta) ∧
    (∃ c, SetupWithManager directReconciler ⟨sampleScheme⟩ = .ok c ∧
      c.For = .ServiceRole ∧
      ObjectType.ServiceAccount ∉ c.Owns ∧
      c.enqueue .ServiceAccount managedAccount.ObjectMeta = []) ∧
    (∃ c, (((NewControllerManagedBy ⟨sampleScheme⟩).For .ServiceRole).Owns
        .ServiceAccount).Complete = .ok c ∧
      c.enqueue .ServiceAccount managedAccount.ObjectMeta = [billingRequest]) := by
  refine ⟨by rfl, ⟨_, by rfl, by rfl, by decide, by rfl⟩, _, by rfl, by decide⟩

/-- C9, amended. `SetupWithManager` registers the controller with `ServiceRole` as the
primary watched type and declares no owned type: a change to a ServiceRole enqueues a
reconcile of its key, and a change to a ServiceAccount, owned or not, enqueues
nothing. -/
theorem registration_primary_only {σ : Type} (r : ServiceRoleReconciler σ) (mgr : Manager)
    (c : Controller) (h : SetupWithManager r mgr = .ok c) :
    c.For = .ServiceRole ∧ c.Owns = [] ∧
    (∀ object, c.enqueue .ServiceRole object = [⟨object.key⟩]) ∧
    (∀ object, c.enqueue .ServiceAccount object = []) := by
  unfold SetupWithManager NewControllerManagedBy Builder.For Builder.Complete at h
  cases hg : GVKForObject mgr.Scheme with
  | error e => simp [hg] at h
  | ok gvk =>
    simp only [hg, Except.ok.injEq] at h
    subst h
    simp [Controller.enqueue]

/-- Witness for C9: the sample manager. -/
theorem registration_primary_only_witness :
    (⟨.ServiceRole, serviceRoleKind, []⟩ : Controller).For = .ServiceRole ∧
    (⟨.ServiceRole, serviceRoleKind, []⟩ : Controller).Owns = [] ∧
    (∀ object, (⟨.ServiceRole, serviceRoleKind, []⟩ : Controller).enqueue .ServiceRole object
      = [⟨object.key⟩]) ∧
    (∀ object, (⟨.ServiceRole, serviceRoleKind, []⟩ : Controller).enqueue .ServiceAccount object
      = []) :=
  registration_primary_only directReconciler ⟨sampleScheme⟩ _ (by rfl)

end IamOperator
